import Mathlib

/-!
Shallow embedding of the convex-batch-processor component
(src/unnamed/part_007, the most evolved `lib.ts` of the component).

The component keeps four record collections (batches, batchItems,
flushHistory, iteratorJobs) in a transactional document store and uses a
delayed-task scheduler.  Every Convex mutation runs as one isolated
transaction; we model each mutation as a pure function on a `Sys` state.
Actions (`maybeFlush`, `executeFlush`, `processNextBatch`) span several
transactions with external callbacks in between; they are modelled as the
sequence of their transactions, the callback outcomes being parameters.

Timestamps (`Date.now()`), durations and item counts are Nat; item payloads
are Nat; document ids and scheduled-task ids are Nat drawn from a shared
`nextId` counter.
-/

namespace BatchProcessor

/-! ## Data model (mirrors the component schema) -/

inductive BatchStatus
  | accumulating
  | flushing
  | completed
deriving DecidableEq, Repr

/-- Batch config as validated by `addItems`: `immediateFlushThreshold` is
optional, `maxBatchSize` is its deprecated alias, `flushIntervalMs` and
`processBatchHandle` are required. -/
structure BatchConfig where
  immediateFlushThreshold : Option Nat
  maxBatchSize : Option Nat
  flushIntervalMs : Nat
  processBatchHandle : String
deriving DecidableEq, Repr

structure Batch where
  docId : Nat
  batchId : String
  baseBatchId : String
  sequence : Nat
  createdAt : Nat
  lastUpdatedAt : Nat
  status : BatchStatus
  config : BatchConfig
  scheduledFlushId : Option Nat
  flushStartedAt : Option Nat
deriving DecidableEq, Repr

/-- One `batchItems` document: the chunk inserted by a single `addItems`
call.  `itemCount` is stored as `items.length` at insertion time. -/
structure BatchItemChunk where
  docId : Nat
  batchDocId : Nat
  items : List Nat
  itemCount : Nat
  createdAt : Nat
deriving DecidableEq, Repr

structure FlushHistoryEntry where
  batchId : String
  itemCount : Nat
  flushedAt : Nat
  durationMs : Nat
  success : Bool
  errorMessage : Option String
deriving DecidableEq, Repr

inductive JobStatus
  | pending
  | running
  | paused
  | completed
  | failed
deriving DecidableEq, Repr

structure IteratorConfig where
  batchSize : Nat
  delayBetweenBatchesMs : Nat
  getNextBatchHandle : String
  processBatchHandle : String
  onCompleteHandle : Option String
  maxRetries : Option Nat
deriving DecidableEq, Repr

structure IteratorJob where
  docId : Nat
  jobId : String
  cursor : Option String
  processedCount : Nat
  status : JobStatus
  config : IteratorConfig
  retryCount : Nat
  errorMessage : Option String
  createdAt : Nat
  lastRunAt : Nat
deriving DecidableEq, Repr

/-- A scheduled internal function call (`ctx.scheduler.runAfter`). -/
inductive TaskCall
  | maybeFlush (batchDocId : Nat) (force : Bool)
  | processNextBatch (jobDocId : Nat)
deriving DecidableEq, Repr

structure ScheduledTask where
  id : Nat
  delayMs : Nat
  call : TaskCall
deriving DecidableEq, Repr

/-- The store plus scheduler state.  `inflight` holds the job snapshots
loaded by `processNextBatch` actions that have not yet finished (the
action keeps the loaded document in memory across its transactions). -/
structure Sys where
  batches : List Batch
  batchItems : List BatchItemChunk
  flushHistory : List FlushHistoryEntry
  iteratorJobs : List IteratorJob
  tasks : List ScheduledTask
  inflight : List IteratorJob
  nextId : Nat
deriving DecidableEq, Repr

def Sys.empty : Sys := ⟨[], [], [], [], [], [], 0⟩

/-! ## Store and scheduler helpers -/

def scheduleTask (s : Sys) (delayMs : Nat) (call : TaskCall) : Nat × Sys :=
  (s.nextId,
    { s with tasks := s.tasks ++ [⟨s.nextId, delayMs, call⟩], nextId := s.nextId + 1 })

def cancelTask (s : Sys) (taskId : Nat) : Sys :=
  { s with tasks := s.tasks.filter (fun t => decide (t.id ≠ taskId)) }

/-- `ctx.db.get` on the batches table. -/
def getBatch (s : Sys) (docId : Nat) : Option Batch :=
  s.batches.find? (fun b => decide (b.docId = docId))

/-- `ctx.db.patch` on a batch document. -/
def patchBatch (s : Sys) (docId : Nat) (f : Batch → Batch) : Sys :=
  { s with batches := s.batches.map (fun b => if b.docId = docId then f b else b) }

/-- The `by_batchDocId` index scan over `batchItems`. -/
def chunksOf (s : Sys) (batchDocId : Nat) : List BatchItemChunk :=
  s.batchItems.filter (fun c => decide (c.batchDocId = batchDocId))

/-- `reduce((sum, doc) => sum + doc.itemCount, 0)`. -/
def sumItemCount (cs : List BatchItemChunk) : Nat :=
  cs.foldl (fun acc c => acc + c.itemCount) 0

/-- `config.immediateFlushThreshold ?? config.maxBatchSize`. -/
def effectiveThreshold (cfg : BatchConfig) : Option Nat :=
  match cfg.immediateFlushThreshold with
  | some th => some th
  | none => cfg.maxBatchSize

/-- Characters before the first "::" separator, the whole string when
none occurs. -/
def baseChars : List Char → List Char
  | [] => []
  | [c] => [c]
  | c1 :: c2 :: rest =>
    if c1 = ':' ∧ c2 = ':' then [] else c1 :: baseChars (c2 :: rest)

/-- `batchId.includes("::") ? batchId.split("::")[0] : batchId`. -/
def baseOf (batchId : String) : String :=
  String.mk (baseChars batchId.data)

/-- The `by_baseBatchId_sequence` index read in descending order,
`.first()`: the batch with the greatest sequence for this base id.  Among
equal sequences the most recently created document comes first in the
descending index order, hence `≥` while folding left over creation order. -/
def latestBySequence (s : Sys) (base : String) : Option Batch :=
  (s.batches.filter (fun b => decide (b.baseBatchId = base))).foldl
    (fun acc b =>
      match acc with
      | none => some b
      | some a => if b.sequence ≥ a.sequence then some b else some a)
    none

/-! ## Accumulator operations (src/unnamed/part_007) -/

structure AddItemsResult where
  batchId : String
  itemCount : Nat
  flushed : Bool
  status : String
deriving DecidableEq, Repr

/-- The new generation record created by `addItems` when no accumulating
batch exists: `sequence = previousMax + 1` (0 when the base id is new),
full id `base::sequence`. -/
def freshBatch (baseBatchId : String) (config : BatchConfig) (now : Nat) (s : Sys) : Batch :=
  let nextSequence :=
    match latestBySequence s baseBatchId with
    | some latest => latest.sequence + 1
    | none => 0
  { docId := s.nextId
    batchId := baseBatchId ++ "::" ++ toString nextSequence
    baseBatchId := baseBatchId
    sequence := nextSequence
    createdAt := now
    lastUpdatedAt := now
    status := BatchStatus.accumulating
    config := config
    scheduledFlushId := none
    flushStartedAt := none }

/-- Creation step of `addItems` (part_007 lines 53-84): insert the new
generation and, when `flushIntervalMs > 0`, schedule the forced interval
flush and store its handle on the batch. -/
def createBatchWithTimer (baseBatchId : String) (config : BatchConfig) (now : Nat)
    (s : Sys) : Nat × Sys :=
  let newBatch := freshBatch baseBatchId config now s
  let sIns : Sys := { s with batches := s.batches ++ [newBatch], nextId := s.nextId + 1 }
  if config.flushIntervalMs > 0 then
    let tp := scheduleTask sIns config.flushIntervalMs (TaskCall.maybeFlush newBatch.docId true)
    (newBatch.docId,
      patchBatch tp.2 newBatch.docId (fun b => { b with scheduledFlushId := some tp.1 }))
  else
    (newBatch.docId, sIns)

/-- The `addItems` mutation (part_007 lines 24-121).  Finds the
accumulating batch for the base id; if none, creates a new generation
(`sequence = previousMax + 1`) and, when `flushIntervalMs > 0`, schedules a
forced `maybeFlush` after that interval, storing the handle.  Always
inserts a new `batchItems` chunk with exactly this call's items.  When this
single call's `items.length` reaches the effective threshold, schedules an
unforced `maybeFlush` with zero delay.  Returns the base id, this call's
item count, `flushed: false` and status string `"accumulating"`. -/
def addItems (batchId : String) (items : List Nat) (config : BatchConfig) (now : Nat)
    (s : Sys) : AddItemsResult × Sys :=
  let baseBatchId := baseOf batchId
  let found := s.batches.find?
    (fun b => decide (b.baseBatchId = baseBatchId ∧ b.status = BatchStatus.accumulating))
  let createdPair : Nat × Sys :=
    match found with
    | some b => (b.docId, s)
    | none => createBatchWithTimer baseBatchId config now s
  let batchDocId := createdPair.1
  let s1 := createdPair.2
  let s2 : Sys := { s1 with
    batchItems := s1.batchItems ++ [⟨s1.nextId, batchDocId, items, items.length, now⟩]
    nextId := s1.nextId + 1 }
  let s3 :=
    match effectiveThreshold config with
    | some th =>
      if items.length ≥ th then (scheduleTask s2 0 (TaskCall.maybeFlush batchDocId false)).2
      else s2
    | none => s2
  ({ batchId := baseBatchId, itemCount := items.length, flushed := false,
     status := "accumulating" }, s3)

inductive FlushTransitionResult
  | flushed (itemCount : Nat) (processBatchHandle : String)
  | notFlushed (reason : String)
deriving DecidableEq, Repr

/-- `!force && threshold !== undefined && totalCount < threshold`. -/
def belowThreshold (cfg : BatchConfig) (force : Bool) (totalCount : Nat) : Bool :=
  !force &&
    (match effectiveThreshold cfg with
     | some th => decide (totalCount < th)
     | none => false)

/-- The `doFlushTransition` internal mutation (part_007 lines 476-544).
Returns `notFlushed "not_accumulating"` when the batch is missing or not
accumulating, `notFlushed "empty"` when the summed chunk count is zero,
`notFlushed "below_threshold"` when unforced and below the effective
threshold; otherwise cancels a pending scheduled flush, patches the batch
to `flushing` with `flushStartedAt = now`, and returns the total count and
the callback handle. -/
def doFlushTransition (batchDocId : Nat) (force : Bool) (now : Nat) (s : Sys) :
    FlushTransitionResult × Sys :=
  match getBatch s batchDocId with
  | none => (FlushTransitionResult.notFlushed "not_accumulating", s)
  | some batch =>
    if batch.status ≠ BatchStatus.accumulating then
      (FlushTransitionResult.notFlushed "not_accumulating", s)
    else if sumItemCount (chunksOf s batchDocId) = 0 then
      (FlushTransitionResult.notFlushed "empty", s)
    else if belowThreshold batch.config force (sumItemCount (chunksOf s batchDocId)) then
      (FlushTransitionResult.notFlushed "below_threshold", s)
    else
      (FlushTransitionResult.flushed (sumItemCount (chunksOf s batchDocId))
          batch.config.processBatchHandle,
        patchBatch
          (match batch.scheduledFlushId with
           | some tid => cancelTask s tid
           | none => s)
          batchDocId
          (fun b =>
            { b with status := BatchStatus.flushing, flushStartedAt := some now,
                     lastUpdatedAt := now, scheduledFlushId := none }))

/-- The chunk documents read by `collectBatchItems` through the
`by_batchDocId_createdAt` index with bound `createdAt < cutoff + 1`: the
chunks of this batch created at or before the cutoff, in ascending
`createdAt` order (ties in creation order; `insertionSort` is stable, like
the index). -/
def collectedChunkDocs (s : Sys) (batchDocId : Nat) (cutoff : Nat) : List BatchItemChunk :=
  (s.batchItems.filter
      (fun c => decide (c.batchDocId = batchDocId ∧ c.createdAt < cutoff + 1))).insertionSort
    (fun a b => a.createdAt ≤ b.createdAt)

/-- The `collectBatchItems` internal query (part_007 lines 355-381). -/
def collectBatchItems (batchDocId : Nat) (now : Nat) (s : Sys) : List Nat × Option Nat :=
  match getBatch s batchDocId with
  | none => ([], none)
  | some batch =>
    let flushStartedAt := batch.flushStartedAt.getD now
    ((collectedChunkDocs s batchDocId flushStartedAt).flatMap (fun c => c.items),
      some flushStartedAt)

/-- Deletion loop of the success branch of `recordFlushResult` (part_007
lines 622-633): delete every chunk of this batch created at or before the
cutoff. -/
def deleteConsumedChunks (batchDocId : Nat) (cutoffTime : Nat) (s : Sys) : Sys :=
  { s with batchItems := (s.batchItems.filter
      (fun c => !decide (c.batchDocId = batchDocId ∧ c.createdAt < cutoffTime + 1))) }

/-- The re-arm condition of the stranded branch (part_007 line 652):
`threshold !== undefined && remainingCount >= threshold`. -/
def thresholdHit (cfg : BatchConfig) (remainingCount : Nat) : Bool :=
  match effectiveThreshold cfg with
  | some th => decide (remainingCount ≥ th)
  | none => false

/-- Re-arm logic of the stranded branch of `recordFlushResult` (part_007
lines 650-662): schedule an immediate unforced `maybeFlush` when the
stranded count reaches the threshold, else re-schedule the interval timer
(storing its handle) when `flushIntervalMs > 0`. -/
def recordFlushRevertArm (batch : Batch) (batchDocId : Nat) (remainingCount : Nat)
    (s3 : Sys) : Sys :=
  if thresholdHit batch.config remainingCount then
    (scheduleTask s3 0 (TaskCall.maybeFlush batchDocId false)).2
  else if batch.config.flushIntervalMs > 0 then
    let tp := scheduleTask s3 batch.config.flushIntervalMs (TaskCall.maybeFlush batchDocId true)
    patchBatch tp.2 batchDocId (fun b => { b with scheduledFlushId := some tp.1 })
  else s3

/-- Cleanup of the completed branch of `recordFlushResult` (part_007 lines
671-692): sort the completed batches of this base id by sequence
descending (the JS comparator `b.sequence - a.sequence`; stable) and
delete all but the first, chunks included. -/
def pruneOldCompleted (base : String) (s3 : Sys) : Sys :=
  let completedBatches := s3.batches.filter (fun b =>
    decide (b.baseBatchId = base ∧ b.status = BatchStatus.completed))
  let sortedCompleted := completedBatches.insertionSort (fun a b => b.sequence ≤ a.sequence)
  let deleteIds := (sortedCompleted.drop 1).map (fun b => b.docId)
  { s3 with
    batches := s3.batches.filter (fun b => !decide (b.docId ∈ deleteIds))
    batchItems := s3.batchItems.filter (fun c => !decide (c.batchDocId ∈ deleteIds)) }

/-- Failure branch of `recordFlushResult` (part_007 lines 694-710):
re-arm the interval timer when configured, then revert the batch to
`accumulating`. -/
def recordFlushFailureArm (batch : Batch) (batchDocId : Nat) (s1 : Sys) : Sys :=
  let armed : Option Nat × Sys :=
    if batch.config.flushIntervalMs > 0 ∧ batch.config.processBatchHandle ≠ "" then
      let tp := scheduleTask s1 batch.config.flushIntervalMs
        (TaskCall.maybeFlush batchDocId true)
      (some tp.1, tp.2)
    else (none, s1)
  patchBatch armed.2 batchDocId (fun b =>
    { b with status := BatchStatus.accumulating, flushStartedAt := none,
             scheduledFlushId := armed.1 })

/-- The `recordFlushResult` internal mutation (part_007 lines 599-712).
On success it deletes the chunks at or before the cutoff, then either
reverts the batch to `accumulating` (re-arming an immediate or interval
flush) when stranded chunks remain, or marks it `completed` and prunes all
but the newest completed generation of the base id.  On failure it reverts
to `accumulating` and re-arms the interval timer. -/
def recordFlushResult (batchDocId : Nat) (itemCount : Nat) (durationMs : Nat)
    (success : Bool) (errorMessage : Option String) (flushStartedAt : Option Nat)
    (now : Nat) (s : Sys) : Sys :=
  match getBatch s batchDocId with
  | none => s
  | some batch =>
    let s1 : Sys := { s with flushHistory := s.flushHistory ++
      [⟨batch.baseBatchId, itemCount, now, durationMs, success, errorMessage⟩] }
    if success then
      let cutoffTime :=
        match flushStartedAt with
        | some t => t
        | none => batch.flushStartedAt.getD now
      let s2 : Sys := deleteConsumedChunks batchDocId cutoffTime s1
      let remainingCount := sumItemCount (chunksOf s2 batchDocId)
      if remainingCount > 0 then
        recordFlushRevertArm batch batchDocId remainingCount
          (patchBatch s2 batchDocId (fun b =>
            { b with status := BatchStatus.accumulating, flushStartedAt := none,
                     lastUpdatedAt := now }))
      else
        pruneOldCompleted batch.baseBatchId
          (patchBatch s2 batchDocId (fun b =>
            { b with status := BatchStatus.completed, flushStartedAt := none,
                     lastUpdatedAt := now }))
    else recordFlushFailureArm batch batchDocId s1

structure FlushExecResult where
  passedItems : Option (List Nat)
  success : Bool
deriving DecidableEq, Repr

/-- The `executeFlush` internal action (part_007 lines 546-597): the
collect transaction, the `processBatch` callback invocation (skipped when
no items were collected; its outcome is the `callbackOk` / `callbackError`
parameters), and the `recordFlushResult` transaction, run back to back.
`passedItems` is the argument handed to the callback, `none` when it was
not invoked. -/
def executeFlushRun (batchDocId : Nat) (callbackOk : Bool) (callbackError : Option String)
    (durationMs : Nat) (tCollect tRecord : Nat) (s : Sys) : FlushExecResult × Sys :=
  let collected := collectBatchItems batchDocId tCollect s
  if collected.1.isEmpty then
    (⟨none, true⟩, recordFlushResult batchDocId 0 0 true none collected.2 tRecord s)
  else
    (⟨some collected.1, callbackOk⟩,
      recordFlushResult batchDocId collected.1.length durationMs callbackOk
        (if callbackOk then none else callbackError) collected.2 tRecord s)

inductive FlushBatchOutcome
  | err (msg : String)
  | empty (batchId : String)
  | scheduled (batchId : String) (itemCount : Nat)
deriving DecidableEq, Repr

/-- The public `flushBatch` mutation (part_007 lines 123-179).  A thrown
error rolls the transaction back, so the error paths leave the state
unchanged.  The success path only schedules a forced `maybeFlush`. -/
def flushBatch (batchId : String) (s : Sys) : FlushBatchOutcome × Sys :=
  let byExact := s.batches.find? (fun b => decide (b.batchId = batchId))
  let found :=
    match byExact with
    | some b => some b
    | none => s.batches.find?
        (fun b => decide (b.baseBatchId = batchId ∧ b.status = BatchStatus.accumulating))
  match found with
  | none => (FlushBatchOutcome.err "not found", s)
  | some batch =>
    if batch.status ≠ BatchStatus.accumulating then
      (FlushBatchOutcome.err "not accumulating", s)
    else
      let itemCount := sumItemCount (chunksOf s batch.docId)
      if itemCount = 0 then (FlushBatchOutcome.empty batchId, s)
      else if batch.config.processBatchHandle = "" then
        (FlushBatchOutcome.err "no processBatchHandle", s)
      else
        (FlushBatchOutcome.scheduled batchId itemCount,
          (scheduleTask s 0 (TaskCall.maybeFlush batch.docId true)).2)

inductive DeleteOutcome
  | deleted
  | refused (reason : String)
deriving DecidableEq, Repr

/-- The public `deleteBatch` mutation (part_007 lines 300-339). -/
def deleteBatch (batchId : String) (s : Sys) : DeleteOutcome × Sys :=
  match s.batches.find? (fun b => decide (b.batchId = batchId)) with
  | none => (DeleteOutcome.refused "Batch not found", s)
  | some batch =>
    if batch.status = BatchStatus.flushing then
      (DeleteOutcome.refused "Cannot delete batch while flushing", s)
    else
      if batch.status = BatchStatus.accumulating ∧
          sumItemCount (chunksOf s batch.docId) > 0 then
        (DeleteOutcome.refused "Cannot delete batch with pending items", s)
      else
        let s1 :=
          match batch.scheduledFlushId with
          | some tid => cancelTask s tid
          | none => s
        (DeleteOutcome.deleted,
          { s1 with
            batchItems := s1.batchItems.filter (fun c => !decide (c.batchDocId = batch.docId))
            batches := s1.batches.filter (fun b => !decide (b.docId = batch.docId)) })

/-! ## Table iterator operations (src/unnamed/part_007) -/

/-- The config accepted by `startIteratorJob`;
`delayBetweenBatchesMs` defaults to 100 when absent. -/
structure StartIteratorConfig where
  batchSize : Nat
  delayBetweenBatchesMs : Option Nat
  getNextBatchHandle : String
  processBatchHandle : String
  onCompleteHandle : Option String
  maxRetries : Option Nat
deriving DecidableEq, Repr

def getJobByJobId (s : Sys) (jobId : String) : Option IteratorJob :=
  s.iteratorJobs.find? (fun j => decide (j.jobId = jobId))

def getJobByDocId (s : Sys) (docId : Nat) : Option IteratorJob :=
  s.iteratorJobs.find? (fun j => decide (j.docId = docId))

def patchJob (s : Sys) (docId : Nat) (f : IteratorJob → IteratorJob) : Sys :=
  { s with iteratorJobs := s.iteratorJobs.map (fun j => if j.docId = docId then f j else j) }

inductive JobOpOutcome
  | err (msg : String)
  | ok (jobId : String) (status : JobStatus)
  | okReason (jobId : String) (status : JobStatus) (reason : String)
deriving DecidableEq, Repr

/-- The `startIteratorJob` mutation (part_007 lines 736-782): fails when
the job id exists, else inserts a running job with `processedCount = 0`,
`retryCount = 0`, no cursor, and schedules `processNextBatch` immediately. -/
def startIteratorJob (jobId : String) (config : StartIteratorConfig) (now : Nat)
    (s : Sys) : JobOpOutcome × Sys :=
  match getJobByJobId s jobId with
  | some _ => (JobOpOutcome.err "already exists", s)
  | none =>
    let job : IteratorJob :=
      { docId := s.nextId
        jobId := jobId
        cursor := none
        processedCount := 0
        status := JobStatus.running
        config :=
          { batchSize := config.batchSize
            delayBetweenBatchesMs := config.delayBetweenBatchesMs.getD 100
            getNextBatchHandle := config.getNextBatchHandle
            processBatchHandle := config.processBatchHandle
            onCompleteHandle := config.onCompleteHandle
            maxRetries := config.maxRetries }
        retryCount := 0
        errorMessage := none
        createdAt := now
        lastRunAt := now }
    let s1 : Sys := { s with iteratorJobs := s.iteratorJobs ++ [job], nextId := s.nextId + 1 }
    (JobOpOutcome.ok jobId JobStatus.running,
      (scheduleTask s1 0 (TaskCall.processNextBatch job.docId)).2)

/-- The `pauseIteratorJob` mutation (part_007 lines 784-806). -/
def pauseIteratorJob (jobId : String) (s : Sys) : JobOpOutcome × Sys :=
  match getJobByJobId s jobId with
  | none => (JobOpOutcome.err "not found", s)
  | some job =>
    if job.status ≠ JobStatus.running then (JobOpOutcome.err "not running", s)
    else
      (JobOpOutcome.ok jobId JobStatus.paused,
        patchJob s job.docId (fun j => { j with status := JobStatus.paused }))

/-- The `resumeIteratorJob` mutation (part_007 lines 808-833): valid only
from `paused`; sets `running`, resets `retryCount` to 0, reschedules. -/
def resumeIteratorJob (jobId : String) (s : Sys) : JobOpOutcome × Sys :=
  match getJobByJobId s jobId with
  | none => (JobOpOutcome.err "not found", s)
  | some job =>
    if job.status ≠ JobStatus.paused then (JobOpOutcome.err "not paused", s)
    else
      let s1 := patchJob s job.docId
        (fun j => { j with status := JobStatus.running, retryCount := 0 })
      (JobOpOutcome.ok jobId JobStatus.running,
        (scheduleTask s1 0 (TaskCall.processNextBatch job.docId)).2)

/-- The `cancelIteratorJob` mutation (part_007 lines 835-858): returns the
current status when already finished, else marks the job failed with a
"Cancelled by user" message. -/
def cancelIteratorJob (jobId : String) (s : Sys) : JobOpOutcome × Sys :=
  match getJobByJobId s jobId with
  | none => (JobOpOutcome.err "not found", s)
  | some job =>
    if job.status = JobStatus.completed ∨ job.status = JobStatus.failed then
      (JobOpOutcome.okReason jobId job.status "Job already finished", s)
    else
      (JobOpOutcome.ok jobId JobStatus.failed,
        patchJob s job.docId (fun j =>
          { j with status := JobStatus.failed, errorMessage := some "Cancelled by user" }))

/-- The `deleteIteratorJob` mutation (part_007 lines 926-945). -/
def deleteIteratorJob (jobId : String) (s : Sys) : DeleteOutcome × Sys :=
  match getJobByJobId s jobId with
  | none => (DeleteOutcome.refused "Job not found", s)
  | some job =>
    if job.status = JobStatus.running ∨ job.status = JobStatus.paused then
      (DeleteOutcome.refused "Cannot delete active job", s)
    else
      (DeleteOutcome.deleted,
        { s with iteratorJobs := s.iteratorJobs.filter (fun j => !decide (j.docId = job.docId)) })

/-- Result of the `getNextBatch` / `processBatch` callbacks of one
`processNextBatch` round: either a page (items, next cursor, done flag)
with both callbacks succeeding, or a failure message thrown by either. -/
inductive PageOutcome
  | page (items : List Nat) (cursor : Option String) (done : Bool)
  | failure (msg : String)
deriving DecidableEq, Repr

/-- First transaction of the `processNextBatch` action (part_007 line
978): the `getIteratorJobById` query.  When the job exists its snapshot
becomes the action's in-flight frame; when it does not, the action stops
at its status check with no further effect. -/
def processLoad (jobDocId : Nat) (s : Sys) : Sys :=
  match getJobByDocId s jobDocId with
  | some job => { s with inflight := s.inflight ++ [job] }
  | none => s

/-- Remainder of an in-flight `processNextBatch` action (part_007 lines
979-1069), acting from the loaded `snapshot`.  The action first stops
silently when the snapshot's status is not `running`.  On a successful
page: `markJobCompleted` when done (status `completed`, summed count, no
`retryCount` reset), else `updateJobProgress` (cursor, count,
`retryCount := 0`) and reschedule after `delayBetweenBatchesMs`.  On a
callback failure: `markJobFailed` when `retryCount + 1 ≥ maxRetries`
(default 5), else `incrementRetryCount` and reschedule after
`min(1000 * 2 ^ (retryCount + 1), 30000)` ms.  When the job document has
been deleted meanwhile, every patch throws and the action dies with no
net effect. -/
def processFinish (snapshot : IteratorJob) (outcome : PageOutcome) (now : Nat)
    (s : Sys) : Sys :=
  if snapshot ∈ s.inflight then
    let s0 : Sys := { s with inflight := s.inflight.erase snapshot }
    if snapshot.status ≠ JobStatus.running then s0
    else match getJobByDocId s0 snapshot.docId with
    | none => s0
    | some _ =>
      match outcome with
      | PageOutcome.page items nextCursor done =>
        let newProcessedCount := snapshot.processedCount + items.length
        if done then
          patchJob s0 snapshot.docId (fun j =>
            { j with status := JobStatus.completed, processedCount := newProcessedCount,
                     lastRunAt := now })
        else
          let s1 := patchJob s0 snapshot.docId (fun j =>
            { j with cursor := nextCursor, processedCount := newProcessedCount,
                     lastRunAt := now, retryCount := 0 })
          (scheduleTask s1 snapshot.config.delayBetweenBatchesMs
            (TaskCall.processNextBatch snapshot.docId)).2
      | PageOutcome.failure msg =>
        let maxRetries := snapshot.config.maxRetries.getD 5
        let newRetryCount := snapshot.retryCount + 1
        if newRetryCount ≥ maxRetries then
          patchJob s0 snapshot.docId (fun j =>
            { j with status := JobStatus.failed, errorMessage := some msg,
                     retryCount := newRetryCount, lastRunAt := now })
        else
          let backoffMs := min (1000 * 2 ^ newRetryCount) 30000
          let s1 := patchJob s0 snapshot.docId (fun j =>
            { j with retryCount := newRetryCount, errorMessage := some msg,
                     lastRunAt := now })
          (scheduleTask s1 backoffMs (TaskCall.processNextBatch snapshot.docId)).2
  else s

/-! ## Step systems

The scheduler and concurrent callers are adversarial: any operation may be
invoked at any time with any arguments (a superset of the behaviours the
real scheduler produces, since every modelled invocation corresponds to a
public call or to a scheduled task firing).  A trace is a fold of steps. -/

/-- One accumulator step: a public mutation, the transition mutation of a
`maybeFlush` action, or the collect/callback/record tail of an
`executeFlush` action. -/
inductive AccStep
  | addItems (batchId : String) (items : List Nat) (config : BatchConfig)
  | flushBatch (batchId : String)
  | transition (batchDocId : Nat) (force : Bool)
  | execFlush (batchDocId : Nat) (callbackOk : Bool) (callbackError : Option String)
      (durationMs : Nat) (tCollect : Nat)
  | deleteBatch (batchId : String)
deriving DecidableEq, Repr

def accStep (k : AccStep) (now : Nat) (s : Sys) : Sys :=
  match k with
  | AccStep.addItems b i c => (addItems b i c now s).2
  | AccStep.flushBatch b => (flushBatch b s).2
  | AccStep.transition d f => (doFlushTransition d f now s).2
  | AccStep.execFlush d ok err dur tCollect => (executeFlushRun d ok err dur tCollect now s).2
  | AccStep.deleteBatch b => (deleteBatch b s).2

/-- One iterator step: a public mutation or one of the two transaction
groups of a `processNextBatch` action. -/
inductive IterStep
  | start (jobId : String) (config : StartIteratorConfig)
  | pause (jobId : String)
  | resume (jobId : String)
  | cancel (jobId : String)
  | deleteJob (jobId : String)
  | load (jobDocId : Nat)
  | finish (snapshot : IteratorJob) (outcome : PageOutcome)
deriving DecidableEq, Repr

def iterStep (k : IterStep) (now : Nat) (s : Sys) : Sys :=
  match k with
  | IterStep.start j c => (startIteratorJob j c now s).2
  | IterStep.pause j => (pauseIteratorJob j s).2
  | IterStep.resume j => (resumeIteratorJob j s).2
  | IterStep.cancel j => (cancelIteratorJob j s).2
  | IterStep.deleteJob j => (deleteIteratorJob j s).2
  | IterStep.load d => processLoad d s
  | IterStep.finish snap o => processFinish snap o now s

/-! ## Invariant vocabulary -/

/-- How many batches of this base id are currently `accumulating`. -/
def accumulatingCount (s : Sys) (base : String) : Nat :=
  s.batches.countP
    (fun b => decide (b.baseBatchId = base ∧ b.status = BatchStatus.accumulating))

/-- The spec invariant: at most one batch per base id is `accumulating`. -/
def OneAccumulatingPerBase (s : Sys) : Prop :=
  ∀ base : String, accumulatingCount s base ≤ 1

/-- A step from `s` to `s'` reverts no batch: no surviving batch document
becomes `accumulating` unless it already was.  Every step except a
`recordFlushResult` that takes a revert branch satisfies this. -/
def NoRevert (s s' : Sys) : Prop :=
  ∀ b ∈ s.batches, ∀ b' ∈ s'.batches, b'.docId = b.docId →
    b.status ≠ BatchStatus.accumulating → b'.status ≠ BatchStatus.accumulating

/-- All batch documents have distinct ids (true of every store state; the
store allocates fresh ids). -/
def DistinctBatchIds (s : Sys) : Prop :=
  s.batches.Pairwise (fun a b => a.docId ≠ b.docId)

/-- All iterator-job documents have distinct ids. -/
def DistinctJobIds (s : Sys) : Prop :=
  s.iteratorJobs.Pairwise (fun a b => a.docId ≠ b.docId)

/-! ## Generic lemmas about the store helpers -/

theorem batches_cancelTask (s : Sys) (tid : Nat) : (cancelTask s tid).batches = s.batches :=
  rfl

theorem batchItems_cancelTask (s : Sys) (tid : Nat) :
    (cancelTask s tid).batchItems = s.batchItems := rfl

theorem batchItems_patchBatch (s : Sys) (docId : Nat) (f : Batch → Batch) :
    (patchBatch s docId f).batchItems = s.batchItems := rfl

theorem tasks_patchBatch (s : Sys) (docId : Nat) (f : Batch → Batch) :
    (patchBatch s docId f).tasks = s.tasks := rfl

/-- Looking a batch up after a doc-id-preserving patch gives the patched
batch. -/
theorem getBatch_patchBatch (s : Sys) (docId : Nat) (f : Batch → Batch)
    (hf : ∀ b, (f b).docId = b.docId) :
    getBatch (patchBatch s docId f) docId =
      (getBatch s docId).map (fun b => if b.docId = docId then f b else b) := by
  unfold getBatch patchBatch
  rw [List.find?_map]
  have hcong : ((fun b : Batch => decide (b.docId = docId)) ∘
      (fun b : Batch => if b.docId = docId then f b else b)) =
      (fun b : Batch => decide (b.docId = docId)) := by
    funext b
    by_cases h : b.docId = docId <;> simp [h, hf]
  rw [hcong]

/-- Looking up a different doc id after a doc-id-preserving patch is
unchanged. -/
theorem getBatch_patchBatch_ne (s : Sys) (docId d : Nat) (f : Batch → Batch)
    (hf : ∀ b, (f b).docId = b.docId) (hne : d ≠ docId) :
    getBatch (patchBatch s docId f) d = getBatch s d := by
  unfold getBatch patchBatch
  rw [List.find?_map]
  have hcong : ((fun b : Batch => decide (b.docId = d)) ∘
      (fun b : Batch => if b.docId = docId then f b else b)) =
      (fun b : Batch => decide (b.docId = d)) := by
    funext b
    by_cases h : b.docId = docId <;> simp [h, hf]
  rw [hcong]
  rcases h : s.batches.find? (fun b => decide (b.docId = d)) with _ | b
  · rw [h]; rfl
  · rw [h]
    have := List.find?_some h
    simp only [decide_eq_true_eq] at this
    simp [this, hne]

/-! ## Claims -/

/-- C10: every `addItems` call returns
`{batchId: baseBatchId, itemCount: items.length, flushed: false, status: "accumulating"}` —
`flushed` is always `false` and the returned status is always
`"accumulating"`, regardless of thresholds or scheduled flush attempts, so
a caller can never observe `flushed: true` or status `"flushing"` from
`addItems`. -/
theorem addItems_result_always_accumulating (batchId : String) (items : List Nat)
    (config : BatchConfig) (now : Nat) (s : Sys) :
    (addItems batchId items config now s).1 =
      { batchId := baseOf batchId, itemCount := items.length, flushed := false,
        status := "accumulating" } := rfl

/-- C9: whenever `doFlushTransition` reports `flushed: false` (batch
missing, not accumulating, empty, or below threshold and unforced), the
call performs no writes at all: the entire state — batches, chunks,
history, jobs, scheduled tasks — is returned unchanged. -/
theorem doFlushTransition_notFlushed_no_writes (batchDocId : Nat) (force : Bool)
    (now : Nat) (s : Sys) (reason : String)
    (h : (doFlushTransition batchDocId force now s).1 =
      FlushTransitionResult.notFlushed reason) :
    (doFlushTransition batchDocId force now s).2 = s := by
  unfold doFlushTransition at h ⊢
  rcases hb : getBatch s batchDocId with _ | b
  · simp [hb]
  · simp only [hb] at h ⊢
    split_ifs at h ⊢ <;> simp_all

/-- Witness for C9: on the empty state (no batch with doc id 0) the
transition reports `not_accumulating` and leaves the state unchanged. -/
theorem doFlushTransition_notFlushed_no_writes_witness :
    (doFlushTransition 0 false 5 Sys.empty).2 = Sys.empty :=
  doFlushTransition_notFlushed_no_writes 0 false 5 Sys.empty "not_accumulating" (by decide)

/-- C3: `doFlushTransition(batchDocId, force)` returns `flushed: false`
with a reason, without raising and without effect, when the batch is
missing or not `accumulating`, when the summed chunk item count is zero,
or when unforced and the total is below the configured threshold;
otherwise it cancels any pending scheduled interval flush, stamps
`flushStartedAt = now`, sets status `flushing`, and returns `flushed: true`
with the total item count and the `processBatch` callback reference. -/
theorem doFlushTransition_cases (batchDocId : Nat) (force : Bool) (now : Nat) (s : Sys) :
    (getBatch s batchDocId = none →
      doFlushTransition batchDocId force now s =
        (FlushTransitionResult.notFlushed "not_accumulating", s)) ∧
    (∀ b, getBatch s batchDocId = some b → b.status ≠ BatchStatus.accumulating →
      doFlushTransition batchDocId force now s =
        (FlushTransitionResult.notFlushed "not_accumulating", s)) ∧
    (∀ b, getBatch s batchDocId = some b → b.status = BatchStatus.accumulating →
      sumItemCount (chunksOf s batchDocId) = 0 →
      doFlushTransition batchDocId force now s =
        (FlushTransitionResult.notFlushed "empty", s)) ∧
    (∀ b th, getBatch s batchDocId = some b → b.status = BatchStatus.accumulating →
      force = false → effectiveThreshold b.config = some th →
      0 < sumItemCount (chunksOf s batchDocId) →
      sumItemCount (chunksOf s batchDocId) < th →
      doFlushTransition batchDocId force now s =
        (FlushTransitionResult.notFlushed "below_threshold", s)) ∧
    (∀ b, getBatch s batchDocId = some b → b.status = BatchStatus.accumulating →
      0 < sumItemCount (chunksOf s batchDocId) →
      (force = true ∨ (match effectiveThreshold b.config with
        | some th => th ≤ sumItemCount (chunksOf s batchDocId)
        | none => True)) →
      (doFlushTransition batchDocId force now s).1 =
        FlushTransitionResult.flushed (sumItemCount (chunksOf s batchDocId))
          b.config.processBatchHandle ∧
      getBatch (doFlushTransition batchDocId force now s).2 batchDocId =
        some { b with status := BatchStatus.flushing, flushStartedAt := some now,
                      lastUpdatedAt := now, scheduledFlushId := none } ∧
      (doFlushTransition batchDocId force now s).2.tasks =
        (match b.scheduledFlushId with
         | some tid => s.tasks.filter (fun t => decide (t.id ≠ tid))
         | none => s.tasks) ∧
      (doFlushTransition batchDocId force now s).2.batchItems = s.batchItems) := by
  refine ⟨?_, ?_, ?_, ?_, ?_⟩
  · intro h
    unfold doFlushTransition
    rw [h]
  · intro b hb hstat
    unfold doFlushTransition
    rw [hb]
    simp [hstat]
  · intro b hb hstat hzero
    unfold doFlushTransition
    rw [hb]
    simp [hstat, hzero]
  · intro b th hb hstat hforce hth hpos hlt
    unfold doFlushTransition
    rw [hb]
    simp [hstat, belowThreshold, hforce, hth, Nat.pos_iff_ne_zero.mp hpos, hlt]
  · intro b hb hstat hpos hcond
    have hbelow : belowThreshold b.config force (sumItemCount (chunksOf s batchDocId)) =
        false := by
      rcases hcond with hf | hm
      · simp [belowThreshold, hf]
      · rcases hth : effectiveThreshold b.config with _ | th
        · simp [belowThreshold, hth]
        · rw [hth] at hm
          simp [belowThreshold, hth, Nat.not_lt.mpr hm]
    have hres : doFlushTransition batchDocId force now s =
        (FlushTransitionResult.flushed (sumItemCount (chunksOf s batchDocId))
            b.config.processBatchHandle,
          patchBatch
            (match b.scheduledFlushId with
             | some tid => cancelTask s tid
             | none => s)
            batchDocId
            (fun bb =>
              { bb with status := BatchStatus.flushing, flushStartedAt := some now,
                        lastUpdatedAt := now, scheduledFlushId := none })) := by
      unfold doFlushTransition
      rw [hb]
      simp [hstat, Nat.pos_iff_ne_zero.mp hpos, hbelow]
    rw [hres]
    have hlookup : getBatch
        (match b.scheduledFlushId with
         | some tid => cancelTask s tid
         | none => s) batchDocId = getBatch s batchDocId := by
      rcases b.scheduledFlushId with _ | tid <;> rfl
    refine ⟨rfl, ?_, ?_, ?_⟩
    · dsimp only
      rw [getBatch_patchBatch _ batchDocId
        (fun bb => { bb with status := BatchStatus.flushing, flushStartedAt := some now,
                             lastUpdatedAt := now, scheduledFlushId := none })
        (fun bb => rfl), hlookup, hb]
      have hid : b.docId = batchDocId := by
        have := List.find?_some hb
        simpa using this
      simp [hid]
    · dsimp only
      rw [tasks_patchBatch]
      rcases b.scheduledFlushId with _ | tid <;> rfl
    · dsimp only
      rw [batchItems_patchBatch]
      rcases b.scheduledFlushId with _ | tid <;> rfl

def c3cfg : BatchConfig :=
  { immediateFlushThreshold := some 2, maxBatchSize := none,
    flushIntervalMs := 100, processBatchHandle := "h" }

def c3s : Sys := (addItems "e" [10, 20] c3cfg 1 Sys.empty).2

def c3batch : Batch :=
  { docId := 0, batchId := "e::0", baseBatchId := "e", sequence := 0, createdAt := 1,
    lastUpdatedAt := 1, status := BatchStatus.accumulating, config := c3cfg,
    scheduledFlushId := some 1, flushStartedAt := none }

/-- Witness for C3: a concrete accumulating batch holding two items at
threshold two is transitioned: the unforced call reports `flushed: true`
with total 2 and its callback handle. -/
theorem doFlushTransition_cases_witness :
    (doFlushTransition 0 false 5 c3s).1 = FlushTransitionResult.flushed 2 "h" := by
  have h := (doFlushTransition_cases 0 false 5 c3s).2.2.2.2 c3batch (by decide) (by decide)
    (by decide) (Or.inr (show 2 ≤ sumItemCount (chunksOf c3s 0) by decide))
  exact h.1.trans (by decide)

def c5job : IteratorJob :=
  { docId := 0, jobId := "j", cursor := none, processedCount := 0,
    status := JobStatus.running,
    config := { batchSize := 10, delayBetweenBatchesMs := 100, getNextBatchHandle := "g",
                processBatchHandle := "p", onCompleteHandle := none, maxRetries := none },
    retryCount := 0, errorMessage := none, createdAt := 0, lastRunAt := 0 }

def c5s : Sys := { Sys.empty with iteratorJobs := [c5job], inflight := [c5job], nextId := 1 }

/-- C5 (code bug): a callback failure observed at `retryCount = 0` (with
default `maxRetries = 5`) schedules the retry of the same step after
`min(1000 * 2 ^ (0 + 1), 30000) = 2000` ms — not the 1000 ms that the
claim (and the repository README, "exponential backoff (1s, 2s, 4s... up
to 30s)") states: `processNextBatch` doubles from the *incremented* retry
count, so the delays run 2000, 4000, 8000, ... capped at 30000. -/
theorem processNextBatch_first_retry_delay_is_2000ms :
    (processFinish c5job (PageOutcome.failure "boom") 3 c5s).tasks =
      [⟨1, 2000, TaskCall.processNextBatch 0⟩] ∧
    (2000 : Nat) ≠ 1000 ∧
    min (1000 * 2 ^ ((0 : Nat) + 1)) 30000 = 2000 ∧ min (1000 * 2 ^ (0 : Nat)) 30000 = 1000 := by
  decide

def c4cfg : BatchConfig :=
  { immediateFlushThreshold := none, maxBatchSize := some 2,
    flushIntervalMs := 0, processBatchHandle := "h" }

def c4s1 : Sys := (addItems "e" [10] c4cfg 1 Sys.empty).2

def c4s2 : Sys := (addItems "e" [11] c4cfg 2 c4s1).2

/-- C4 counterexample: with `maxBatchSize = 2` and no interval timer,
`addItems("e", [a])` then `addItems("e", [b])` leave the batch
`accumulating` with both chunks present and schedule no flush attempt at
all — the second call does not trigger the flush transition and
`processBatch` is never invoked, because `addItems` compares only this
call's `items.length` (1) against the threshold (2). -/
theorem addItems_two_single_item_calls_never_flush :
    (getBatch c4s2 0).map Batch.status = some BatchStatus.accumulating ∧
    sumItemCount (chunksOf c4s2 0) = 2 ∧
    c4s2.tasks = [] := by decide

def c4s1b : Sys := (addItems "e" [10, 11] c4cfg 1 Sys.empty).2

def c4flushed : Sys := (doFlushTransition 0 false 2 c4s1b).2

/-- C4 (amended): with `maxBatchSize = 2` and no interval timer,
`addItems("e", [a])` leaves the batch accumulating with 1 item and
`addItems("e", [b])` leaves it accumulating with 2 items, scheduling no
flush attempt (the size trigger compares only the single call's
`items.length` against the threshold), so `processBatch` is not invoked;
a single call `addItems("e", [a, b])` does schedule the attempt, the
transition flushes 2 items, `processBatch` is invoked once with
`[a, b]`, and the batch ends `completed`. -/
theorem addItems_size_trigger_is_per_call :
    ((getBatch c4s1 0).map Batch.status = some BatchStatus.accumulating ∧
     sumItemCount (chunksOf c4s1 0) = 1 ∧ c4s1.tasks = []) ∧
    ((getBatch c4s2 0).map Batch.status = some BatchStatus.accumulating ∧
     sumItemCount (chunksOf c4s2 0) = 2 ∧ c4s2.tasks = []) ∧
    (c4s1b.tasks = [⟨2, 0, TaskCall.maybeFlush 0 false⟩] ∧
     (doFlushTransition 0 false 2 c4s1b).1 = FlushTransitionResult.flushed 2 "h" ∧
     (executeFlushRun 0 true none 1 3 4 c4flushed).1.passedItems = some [10, 11] ∧
     (getBatch (executeFlushRun 0 true none 1 3 4 c4flushed).2 0).map Batch.status =
       some BatchStatus.completed) := by decide

/-! ### C1: the one-accumulating-batch-per-baseId invariant -/

theorem countP_batches_map_le (l : List Batch) (p : Batch → Bool) (f : Batch → Batch)
    (h : ∀ b ∈ l, p (f b) = true → p b = true) :
    (l.map f).countP p ≤ l.countP p := by
  rw [List.countP_map]
  exact List.countP_mono_left fun a ha hpa => h a ha hpa

theorem countP_batches_map_eq (l : List Batch) (p : Batch → Bool) (f : Batch → Batch)
    (h : ∀ b ∈ l, p (f b) = p b) :
    (l.map f).countP p = l.countP p := by
  rw [List.countP_map]
  exact List.countP_congr fun a ha => by simp [Function.comp, h a ha]

theorem countP_batches_filter_le (l : List Batch) (p q : Batch → Bool) :
    (l.filter q).countP p ≤ l.countP p :=
  (List.filter_sublist l).countP_le p

theorem recordFlushRevertArm_batches (batch : Batch) (id rem : Nat) (s3 : Sys) :
    (recordFlushRevertArm batch id rem s3).batches = s3.batches ∨
    (∃ tid, (recordFlushRevertArm batch id rem s3).batches =
      s3.batches.map (fun b =>
        if b.docId = id then { b with scheduledFlushId := some tid } else b)) := by
  unfold recordFlushRevertArm
  split
  · exact Or.inl rfl
  · split
    · exact Or.inr ⟨_, rfl⟩
    · exact Or.inl rfl

theorem recordFlushFailureArm_batches (batch : Batch) (id : Nat) (s1 : Sys) :
    ∃ sfid, (recordFlushFailureArm batch id s1).batches =
      s1.batches.map (fun b =>
        if b.docId = id then
          { b with status := BatchStatus.accumulating, flushStartedAt := none,
                   scheduledFlushId := sfid }
        else b) := by
  unfold recordFlushFailureArm
  by_cases h : batch.config.flushIntervalMs > 0 ∧ batch.config.processBatchHandle ≠ ""
  · simp only [if_pos h]
    exact ⟨_, rfl⟩
  · simp only [if_neg h]
    exact ⟨none, rfl⟩

theorem pruneOldCompleted_batches (base : String) (s3 : Sys) :
    ∃ q : Batch → Bool, (pruneOldCompleted base s3).batches = s3.batches.filter q :=
  ⟨_, rfl⟩

/-- Every `recordFlushResult` call leaves the batches table unchanged, or
reverts the target batch to `accumulating` (possibly also storing a timer
handle on it), or marks the target `completed` and deletes a subset of
batches.  The auxiliary function `f` only touches the target doc id and
never changes `docId` or `baseBatchId`. -/
theorem recordFlushResult_batches_cases (batchDocId itemCount durationMs : Nat)
    (success : Bool) (errorMessage : Option String) (flushStartedAt : Option Nat)
    (now : Nat) (s : Sys) :
    (recordFlushResult batchDocId itemCount durationMs success errorMessage
        flushStartedAt now s).batches = s.batches ∨
    (∃ f : Batch → Batch,
      (∀ b, b.docId ≠ batchDocId → f b = b) ∧
      (∀ b, (f b).docId = b.docId ∧ (f b).baseBatchId = b.baseBatchId) ∧
      (∀ b, b.docId = batchDocId → (f b).status = BatchStatus.accumulating) ∧
      (recordFlushResult batchDocId itemCount durationMs success errorMessage
        flushStartedAt now s).batches = s.batches.map f) ∨
    (∃ (f : Batch → Batch) (q : Batch → Bool),
      (∀ b, b.docId ≠ batchDocId → f b = b) ∧
      (∀ b, (f b).docId = b.docId ∧ (f b).baseBatchId = b.baseBatchId) ∧
      (∀ b, b.docId = batchDocId → (f b).status = BatchStatus.completed) ∧
      (recordFlushResult batchDocId itemCount durationMs success errorMessage
        flushStartedAt now s).batches = (s.batches.map f).filter q) := by
  unfold recordFlushResult
  rcases hb : getBatch s batchDocId with _ | batch
  · exact Or.inl rfl
  · cases success
    · -- failure branch: revert
      right; left
      simp only [Bool.false_eq_true, if_false]
      obtain ⟨sfid, heq⟩ := recordFlushFailureArm_batches batch batchDocId
        { s with flushHistory := s.flushHistory ++
          [⟨batch.baseBatchId, itemCount, now, durationMs, false, errorMessage⟩] }
      refine ⟨_, ?_, ?_, ?_, heq⟩
      · intro b hbne; simp [hbne]
      · intro b; by_cases hd : b.docId = batchDocId <;> simp [hd]
      · intro b hd; simp [hd]
    · -- success branch
      simp only [if_true]
      split
      · -- stranded chunks remain: revert (possibly re-arming)
        right; left
        rcases recordFlushRevertArm_batches batch batchDocId _ _ with harm | ⟨tid, harm⟩
        · rw [harm]
          refine ⟨_, ?_, ?_, ?_, rfl⟩
          · intro b hbne; simp [patchBatch, hbne]
          · intro b; by_cases hd : b.docId = batchDocId <;> simp [patchBatch, hd]
          · intro b hd; simp [patchBatch, hd]
        · rw [harm]
          simp only [patchBatch, List.map_map]
          refine ⟨_, ?_, ?_, ?_, rfl⟩
          · intro b hbne; simp [Function.comp, hbne]
          · intro b; by_cases hd : b.docId = batchDocId <;> simp [Function.comp, hd]
          · intro b hd; simp [Function.comp, hd]
      · -- no stranded chunks: complete and prune
        right; right
        obtain ⟨q, hq⟩ := pruneOldCompleted_batches batch.baseBatchId
          (patchBatch _ batchDocId _)
        rw [hq]
        refine ⟨_, q, ?_, ?_, ?_, rfl⟩
        · intro b hbne; simp [patchBatch, hbne]
        · intro b; by_cases hd : b.docId = batchDocId <;> simp [patchBatch, hd]
        · intro b hd; simp [patchBatch, hd]

theorem flushBatch_batches (batchId : String) (s : Sys) :
    (flushBatch batchId s).2.batches = s.batches := by
  simp only [flushBatch]
  split
  · rfl
  · split
    · rfl
    · split
      · rfl
      · split <;> rfl

theorem deleteBatch_batches (batchId : String) (s : Sys) :
    (deleteBatch batchId s).2.batches = s.batches ∨
    ∃ q : Batch → Bool, (deleteBatch batchId s).2.batches = s.batches.filter q := by
  unfold deleteBatch
  split
  · exact Or.inl rfl
  · rename_i batch _
    split
    · exact Or.inl rfl
    · split
      · exact Or.inl rfl
      · right
        refine ⟨fun bb => !decide (bb.docId = batch.docId), ?_⟩
        split <;> rfl

theorem doFlushTransition_batches_cases (batchDocId : Nat) (force : Bool) (now : Nat)
    (s : Sys) :
    (doFlushTransition batchDocId force now s).2.batches = s.batches ∨
    (∃ f : Batch → Batch,
      (∀ b, b.docId ≠ batchDocId → f b = b) ∧
      (∀ b, (f b).docId = b.docId ∧ (f b).baseBatchId = b.baseBatchId) ∧
      (∀ b, b.docId = batchDocId → (f b).status = BatchStatus.flushing) ∧
      (doFlushTransition batchDocId force now s).2.batches = s.batches.map f) := by
  unfold doFlushTransition
  split
  · exact Or.inl rfl
  · split
    · exact Or.inl rfl
    · split
      · exact Or.inl rfl
      · split
        · exact Or.inl rfl
        · right
          refine ⟨fun b => if b.docId = batchDocId then
            { b with status := BatchStatus.flushing, flushStartedAt := some now,
                     lastUpdatedAt := now, scheduledFlushId := none } else b,
            ?_, ?_, ?_, ?_⟩
          · intro b hbne; simp [hbne]
          · intro b; by_cases hd : b.docId = batchDocId <;> simp [hd]
          · intro b hd; simp [hd]
          · split <;> rfl

theorem executeFlushRun_is_recordFlushResult (batchDocId : Nat) (callbackOk : Bool)
    (callbackError : Option String) (durationMs tCollect tRecord : Nat) (s : Sys) :
    ∃ (ic dur : Nat) (succ : Bool) (err : Option String) (fsa : Option Nat),
      (executeFlushRun batchDocId callbackOk callbackError durationMs tCollect tRecord s).2 =
        recordFlushResult batchDocId ic dur succ err fsa tRecord s := by
  unfold executeFlushRun
  by_cases hc : (collectBatchItems batchDocId tCollect s).1.isEmpty
  · exact ⟨0, 0, true, none, (collectBatchItems batchDocId tCollect s).2, by simp [hc]⟩
  · exact ⟨(collectBatchItems batchDocId tCollect s).1.length, durationMs, callbackOk,
      (if callbackOk then none else callbackError),
      (collectBatchItems batchDocId tCollect s).2, by simp [hc]⟩

theorem addItems_batches_cases (batchId : String) (items : List Nat) (config : BatchConfig)
    (now : Nat) (s : Sys) :
    (addItems batchId items config now s).2.batches = s.batches ∨
    (s.batches.find? (fun b =>
        decide (b.baseBatchId = baseOf batchId ∧ b.status = BatchStatus.accumulating)) =
          none ∧
     ∃ (nb : Batch) (f : Batch → Batch),
       nb.baseBatchId = baseOf batchId ∧ nb.status = BatchStatus.accumulating ∧
       (∀ b, (f b).baseBatchId = b.baseBatchId ∧ (f b).status = b.status) ∧
       (addItems batchId items config now s).2.batches = (s.batches ++ [nb]).map f) := by
  have hthr : ∀ (s2 : Sys) (did : Nat),
      (match effectiveThreshold config with
       | some th =>
         if items.length ≥ th then (scheduleTask s2 0 (TaskCall.maybeFlush did false)).2
         else s2
       | none => s2).batches = s2.batches := by
    intro s2 did
    rcases effectiveThreshold config with _ | th
    · rfl
    · by_cases hlen : items.length ≥ th
      · simp only [if_pos hlen]
        rfl
      · simp only [if_neg hlen]
  have hred : (addItems batchId items config now s).2.batches =
      (match s.batches.find? (fun b : Batch =>
          decide (b.baseBatchId = baseOf batchId ∧ b.status = BatchStatus.accumulating)) with
       | some b => (b.docId, s)
       | none => createBatchWithTimer (baseOf batchId) config now s).2.batches := by
    unfold addItems
    exact hthr _ _
  rw [hred]
  split
  · exact Or.inl rfl
  · rename_i hf
    right
    refine ⟨hf, ?_⟩
    unfold createBatchWithTimer
    by_cases hi : config.flushIntervalMs > 0
    · simp only [if_pos hi]
      refine ⟨freshBatch (baseOf batchId) config now s,
        fun b => if b.docId = (freshBatch (baseOf batchId) config now s).docId then
          { b with scheduledFlushId := some (s.nextId + 1) } else b,
        rfl, rfl, ?_, ?_⟩
      · intro b
        by_cases hd : b.docId = (freshBatch (baseOf batchId) config now s).docId <;>
          simp [hd]
      · rfl
    · simp only [if_neg hi]
      refine ⟨freshBatch (baseOf batchId) config now s, fun b => b,
        rfl, rfl, fun b => ⟨rfl, rfl⟩, ?_⟩
      rw [List.map_id']

/-- C1 (amended): `addItems`, `flushBatch`, `doFlushTransition` and
`deleteBatch` steps always preserve "at most one `accumulating` batch per
`baseId`", and so does an `executeFlush`/`recordFlushResult` step that
does not set any surviving batch back to `accumulating`; in particular
`addItems` never creates a second accumulating generation.  The invariant
is not preserved in general: a `recordFlushResult` that reverts a flushing
generation (callback failure, or stranded chunks on success) can restore
`accumulating` on an old generation while a newer accumulating generation
created during the flush exists (see the counterexample). -/
theorem oneAccumulating_preserved_without_revert (k : AccStep) (now : Nat) (s : Sys)
    (hinv : OneAccumulatingPerBase s)
    (hnr : NoRevert s (accStep k now s)) :
    OneAccumulatingPerBase (accStep k now s) := by
  intro base
  unfold accumulatingCount
  set p : Batch → Bool :=
    fun b => decide (b.baseBatchId = base ∧ b.status = BatchStatus.accumulating) with hp
  have hinvb := hinv base
  unfold accumulatingCount at hinvb
  rw [← hp] at hinvb
  cases k with
  | addItems batchId items config =>
    simp only [accStep] at hnr ⊢
    rcases addItems_batches_cases batchId items config now s with heq |
      ⟨hnone, nb, f, hnb1, hnb2, hfpres, heq⟩
    · rw [heq]; exact hinvb
    · rw [heq]
      have hmapeq : ((s.batches ++ [nb]).map f).countP p = (s.batches ++ [nb]).countP p := by
        apply countP_batches_map_eq
        intro b _
        simp [hp, (hfpres b).1, (hfpres b).2]
      rw [hmapeq, List.countP_append]
      by_cases hbase : baseOf batchId = base
      · have hzero : s.batches.countP p = 0 := by
          rw [List.countP_eq_zero]
          intro b hbmem
          have hnb := List.find?_eq_none.mp hnone b hbmem
          simp only [decide_eq_true_eq] at hnb
          simp only [hp, decide_eq_true_eq]
          intro hcontra
          exact hnb ⟨hcontra.1.trans hbase.symm, hcontra.2⟩
        have hone : List.countP p [nb] ≤ 1 :=
          le_trans (List.countP_le_length p) (by simp)
        omega
      · have hzero : List.countP p [nb] = 0 := by
          rw [List.countP_eq_zero]
          intro b hbmem
          simp only [List.mem_singleton] at hbmem
          subst hbmem
          simp [hp, hnb1, hbase]
        omega
  | flushBatch batchId =>
    simp only [accStep] at hnr ⊢
    rw [flushBatch_batches]
    exact hinvb
  | transition batchDocId force =>
    simp only [accStep] at hnr ⊢
    rcases doFlushTransition_batches_cases batchDocId force now s with heq |
      ⟨f, hother, hpres, hflush, heq⟩
    · rw [heq]; exact hinvb
    · rw [heq]
      refine le_trans (countP_batches_map_le _ _ _ ?_) hinvb
      intro b _ hpf
      by_cases hd : b.docId = batchDocId
      · exfalso
        have := hflush b hd
        rw [hp] at hpf
        simp only [decide_eq_true_eq] at hpf
        rw [this] at hpf
        exact absurd hpf.2 (by simp)
      · rw [hother b hd] at hpf
        exact hpf
  | execFlush batchDocId callbackOk callbackError durationMs tCollect =>
    simp only [accStep] at hnr ⊢
    obtain ⟨ic, dur, succ, err, fsa, hex⟩ :=
      executeFlushRun_is_recordFlushResult batchDocId callbackOk callbackError
        durationMs tCollect now s
    rw [hex] at hnr ⊢
    rcases recordFlushResult_batches_cases batchDocId ic dur succ err fsa now s with heq |
      ⟨f, hother, hpres, hacc, heq⟩ | ⟨f, q, hother, hpres, hcomp, heq⟩
    · rw [heq]; exact hinvb
    · rw [heq]
      have hmapeq : (s.batches.map f).countP p = s.batches.countP p := by
        apply countP_batches_map_eq
        intro b hbmem
        by_cases hd : b.docId = batchDocId
        · by_cases hbs : b.status = BatchStatus.accumulating
          · simp [hp, (hpres b).2, hacc b hd, hbs]
          · exfalso
            have hmem2 : f b ∈ (recordFlushResult batchDocId ic dur succ err fsa
                now s).batches := by
              rw [heq]; exact List.mem_map_of_mem f hbmem
            exact hnr b hbmem (f b) hmem2 (hpres b).1 hbs (hacc b hd)
        · rw [hother b hd]
      rw [hmapeq]; exact hinvb
    · rw [heq]
      refine le_trans (countP_batches_filter_le _ _ _) ?_
      refine le_trans (countP_batches_map_le _ _ _ ?_) hinvb
      intro b _ hpf
      by_cases hd : b.docId = batchDocId
      · exfalso
        have := hcomp b hd
        rw [hp] at hpf
        simp only [decide_eq_true_eq] at hpf
        rw [this] at hpf
        exact absurd hpf.2 (by simp)
      · rw [hother b hd] at hpf
        exact hpf
  | deleteBatch batchId =>
    simp only [accStep] at hnr ⊢
    rcases deleteBatch_batches batchId s with heq | ⟨q, heq⟩
    · rw [heq]; exact hinvb
    · rw [heq]
      exact le_trans (countP_batches_filter_le _ _ _) hinvb

def c1cfg : BatchConfig :=
  { immediateFlushThreshold := some 1, maxBatchSize := none,
    flushIntervalMs := 0, processBatchHandle := "h" }

def c1s1 : Sys := accStep (AccStep.addItems "e" [10] c1cfg) 1 Sys.empty

def c1s2 : Sys := accStep (AccStep.transition 0 false) 2 c1s1

def c1s3 : Sys := accStep (AccStep.addItems "e" [20] c1cfg) 3 c1s2

def c1s4 : Sys := accStep (AccStep.execFlush 0 false (some "boom") 7 4) 5 c1s3

/-- Witness for the amended C1 theorem: an `addItems` step out of the
empty state (which trivially satisfies both hypotheses) keeps the
invariant. -/
theorem oneAccumulating_preserved_without_revert_witness :
    OneAccumulatingPerBase (accStep (AccStep.addItems "e" [10] c1cfg) 1 Sys.empty) :=
  oneAccumulating_preserved_without_revert (AccStep.addItems "e" [10] c1cfg) 1 Sys.empty
    (fun base => by simp [accumulatingCount, Sys.empty])
    (fun b hb => absurd hb (List.not_mem_nil b))

/-- C1 counterexample: a reachable interleaving with two `accumulating`
batches for base id "e".  Trace (every step is a behaviour of the code):
`addItems "e" [10]` with threshold 1 creates generation 0 and schedules an
unforced `maybeFlush`; that task's `doFlushTransition` moves generation 0
to `flushing`; a concurrent `addItems "e" [20]` finds no accumulating
batch and creates generation 1 (`accumulating`); then the in-flight
`executeFlush` fails in its `processBatch` callback and its
`recordFlushResult` reverts generation 0 to `accumulating` — generations 0
and 1 are now both `accumulating` for "e". -/
theorem two_accumulating_generations_reachable :
    accumulatingCount c1s4 "e" = 2 ∧ ¬ OneAccumulatingPerBase c1s4 := by
  refine ⟨by decide, fun h => absurd (h "e") (by decide)⟩

/-! ### Iterator-side helper lemmas -/

theorem getJobByDocId_patchJob (s : Sys) (docId : Nat) (f : IteratorJob → IteratorJob)
    (hf : ∀ j, (f j).docId = j.docId) :
    getJobByDocId (patchJob s docId f) docId =
      (getJobByDocId s docId).map (fun j => if j.docId = docId then f j else j) := by
  unfold getJobByDocId patchJob
  rw [List.find?_map]
  have hcong : ((fun j : IteratorJob => decide (j.docId = docId)) ∘
      (fun j : IteratorJob => if j.docId = docId then f j else j)) =
      (fun j : IteratorJob => decide (j.docId = docId)) := by
    funext j
    by_cases h : j.docId = docId <;> simp [h, hf]
  rw [hcong]

theorem getJobByDocId_patchJob_ne (s : Sys) (docId d : Nat) (f : IteratorJob → IteratorJob)
    (hf : ∀ j, (f j).docId = j.docId) (hne : d ≠ docId) :
    getJobByDocId (patchJob s docId f) d = getJobByDocId s d := by
  unfold getJobByDocId patchJob
  rw [List.find?_map]
  have hcong : ((fun j : IteratorJob => decide (j.docId = d)) ∘
      (fun j : IteratorJob => if j.docId = docId then f j else j)) =
      (fun j : IteratorJob => decide (j.docId = d)) := by
    funext j
    by_cases h : j.docId = docId <;> simp [h, hf]
  rw [hcong]
  rcases h : s.iteratorJobs.find? (fun j => decide (j.docId = d)) with _ | j
  · rw [h]; rfl
  · rw [h]
    have := List.find?_some h
    simp only [decide_eq_true_eq] at this
    simp [this, hne]

/-- The first match of a predicate survives filtering, as the first
match, when it satisfies the filter. -/
theorem find?_filter_of_find? {α : Type} (l : List α) (p q : α → Bool) (a : α)
    (h : l.find? p = some a) (hq : q a = true) :
    (l.filter q).find? p = some a := by
  induction l with
  | nil => simp at h
  | cons x xs ih =>
    rw [List.find?_cons] at h
    by_cases hpx : p x
    · simp only [hpx] at h
      injection h with h
      subst h
      rw [List.filter_cons, if_pos hq, List.find?_cons]
      simp only [hpx]
    · simp only [Bool.not_eq_true] at hpx
      simp only [hpx] at h
      rw [List.filter_cons]
      by_cases hqx : q x
      · rw [if_pos hqx, List.find?_cons]
        simp only [hpx]
        exact ih h
      · rw [if_neg hqx]
        exact ih h

/-- Appending documents does not change which document a lookup finds. -/
theorem find?_append_of_find? {α : Type} (l₁ l₂ : List α) (p : α → Bool) (a : α)
    (h : l₁.find? p = some a) : (l₁ ++ l₂).find? p = some a := by
  induction l₁ with
  | nil => simp at h
  | cons x xs ih =>
    rw [List.find?_cons] at h
    by_cases hpx : p x
    · simp only [hpx] at h
      rw [List.cons_append, List.find?_cons]
      simp only [hpx]
      exact h
    · simp only [Bool.not_eq_true] at hpx
      simp only [hpx] at h
      rw [List.cons_append, List.find?_cons]
      simp only [hpx]
      exact ih h

theorem find?_docId_of_mem (l : List IteratorJob) (j : IteratorJob)
    (hdid : l.Pairwise (fun a b => a.docId ≠ b.docId)) (hmem : j ∈ l) :
    l.find? (fun x => decide (x.docId = j.docId)) = some j := by
  induction l with
  | nil => simp at hmem
  | cons x xs ih =>
    rw [List.find?_cons]
    rcases List.mem_cons.mp hmem with hx | hxs
    · subst hx
      simp
    · have hne : x.docId ≠ j.docId := (List.pairwise_cons.mp hdid).1 j hxs
      have hdec : (decide (x.docId = j.docId)) = false := by simp [hne]
      simp only [hdec]
      exact ih (List.pairwise_cons.mp hdid).2 hxs

/-- In a store with pairwise distinct job doc ids, a member with the
looked-up doc id is the one `find?` returns. -/
theorem getJobByDocId_of_mem (s : Sys) (j : IteratorJob)
    (hdid : DistinctJobIds s) (hmem : j ∈ s.iteratorJobs) :
    getJobByDocId s j.docId = some j :=
  find?_docId_of_mem s.iteratorJobs j hdid hmem

theorem distinct_mem_docId_eq (l : List IteratorJob)
    (hdid : l.Pairwise (fun a b => a.docId ≠ b.docId)) {a b : IteratorJob}
    (ha : a ∈ l) (hb : b ∈ l) (h : a.docId = b.docId) : a = b := by
  have h1 := find?_docId_of_mem l a hdid ha
  have h2 := find?_docId_of_mem l b hdid hb
  rw [h] at h1
  have := h1.symm.trans h2
  injection this

theorem getJobByDocId_congr (s t : Sys) (h : s.iteratorJobs = t.iteratorJobs) (d : Nat) :
    getJobByDocId s d = getJobByDocId t d := by
  unfold getJobByDocId
  rw [h]

/-- An in-flight continuation whose snapshot was not loaded as `running`
stops at the status check and touches no job record. -/
theorem processFinish_jobs_not_running (snap : IteratorJob) (o : PageOutcome)
    (now : Nat) (s : Sys) (h : snap.status ≠ JobStatus.running) :
    (processFinish snap o now s).iteratorJobs = s.iteratorJobs := by
  unfold processFinish
  by_cases hin : snap ∈ s.inflight
  · simp only [if_pos hin]
    rw [if_pos h]
  · rw [if_neg hin]

/-- An in-flight continuation only ever patches its own job document. -/
theorem processFinish_getJob_ne (snap : IteratorJob) (o : PageOutcome) (now : Nat)
    (s : Sys) (d : Nat) (hne : d ≠ snap.docId) :
    getJobByDocId (processFinish snap o now s) d = getJobByDocId s d := by
  unfold processFinish
  by_cases hin : snap ∈ s.inflight
  · simp only [if_pos hin]
    by_cases hrun : snap.status ≠ JobStatus.running
    · rw [if_pos hrun]
      rfl
    · rw [if_neg hrun]
      split
      · rfl
      · rcases o with ⟨items, cur, done⟩ | msg
        · by_cases hdone : done = true
          · simp only [hdone, if_true]
            refine (getJobByDocId_patchJob_ne _ snap.docId d _ ?_ hne).trans
              (getJobByDocId_congr _ s rfl d)
            intro jj
            rfl
          · simp only [hdone, Bool.false_eq_true, if_false]
            refine (getJobByDocId_congr _
              (patchJob { s with inflight := s.inflight.erase snap } snap.docId
                (fun j => { j with
                  cursor := cur
                  processedCount := snap.processedCount + items.length
                  lastRunAt := now
                  retryCount := 0 })) rfl d).trans
              ((getJobByDocId_patchJob_ne _ snap.docId d _ ?_ hne).trans
                (getJobByDocId_congr _ s rfl d))
            intro jj
            rfl
        · by_cases hmax : snap.retryCount + 1 ≥ snap.config.maxRetries.getD 5
          · simp only [if_pos hmax]
            refine (getJobByDocId_patchJob_ne _ snap.docId d _ ?_ hne).trans
              (getJobByDocId_congr _ s rfl d)
            intro jj
            rfl
          · simp only [if_neg hmax]
            refine (getJobByDocId_congr _
              (patchJob { s with inflight := s.inflight.erase snap } snap.docId
                (fun j => { j with
                  retryCount := snap.retryCount + 1
                  errorMessage := some msg
                  lastRunAt := now })) rfl d).trans
              ((getJobByDocId_patchJob_ne _ snap.docId d _ ?_ hne).trans
                (getJobByDocId_congr _ s rfl d))
            intro jj
            rfl
  · rw [if_neg hin]

/-- C8 (amended): every `pauseIteratorJob`, `resumeIteratorJob`,
`cancelIteratorJob`, `deleteIteratorJob`, `startIteratorJob` or job-load
step leaves a `completed`/`failed` job's record untouched (or, for
delete, removes it), and so does the tail of an in-flight
`processNextBatch` whose loaded snapshot was not `running` or concerns a
different job.  The original claim fails for an in-flight
`processNextBatch` tail whose snapshot was loaded as `running` before the
terminal transition: it overwrites the terminal status (see the
counterexample). -/
theorem terminal_job_status_stable (k : IterStep) (now : Nat) (s : Sys) (d : Nat)
    (j : IteratorJob)
    (hdid : DistinctJobIds s)
    (hj : getJobByDocId s d = some j)
    (hterm : j.status = JobStatus.completed ∨ j.status = JobStatus.failed)
    (hk : ∀ snap o, k = IterStep.finish snap o →
      snap.status ≠ JobStatus.running ∨ snap.docId ≠ d) :
    getJobByDocId (iterStep k now s) d = some j ∨
    getJobByDocId (iterStep k now s) d = none := by
  have hjd : j.docId = d := by
    have := List.find?_some hj
    simpa using this
  have hjmem : j ∈ s.iteratorJobs := List.mem_of_find?_eq_some hj
  have hjnotrun : j.status ≠ JobStatus.running := by
    rcases hterm with h | h <;> simp [h]
  cases k with
  | start jobId config =>
    simp only [iterStep]
    unfold startIteratorJob
    split
    · exact Or.inl hj
    · left
      unfold getJobByDocId at hj ⊢
      exact find?_append_of_find? _ _ _ _ hj
  | pause jobId =>
    simp only [iterStep]
    unfold pauseIteratorJob
    split
    · exact Or.inl hj
    · rename_i j0 hfound
      split
      · exact Or.inl hj
      · rename_i hrun
        rw [Decidable.not_not] at hrun
        by_cases hd : j0.docId = d
        · exfalso
          have hj0mem : j0 ∈ s.iteratorJobs := List.mem_of_find?_eq_some hfound
          have : j0 = j := distinct_mem_docId_eq s.iteratorJobs hdid hj0mem hjmem
            (by rw [hd, hjd])
          rw [this] at hrun
          exact hjnotrun hrun
        · left
          have := getJobByDocId_patchJob_ne s j0.docId d
            (fun jj => { jj with status := JobStatus.paused })
            (fun jj => rfl) (Ne.symm hd)
          exact this.trans hj
  | resume jobId =>
    simp only [iterStep]
    unfold resumeIteratorJob
    split
    · exact Or.inl hj
    · rename_i j0 hfound
      split
      · exact Or.inl hj
      · rename_i hpaused
        rw [Decidable.not_not] at hpaused
        by_cases hd : j0.docId = d
        · exfalso
          have hj0mem : j0 ∈ s.iteratorJobs := List.mem_of_find?_eq_some hfound
          have heqj : j0 = j := distinct_mem_docId_eq s.iteratorJobs hdid hj0mem hjmem
            (by rw [hd, hjd])
          rw [heqj] at hpaused
          rcases hterm with h | h <;> rw [h] at hpaused <;> exact absurd hpaused (by simp)
        · left
          have := getJobByDocId_patchJob_ne s j0.docId d
            (fun jj => { jj with status := JobStatus.running, retryCount := 0 })
            (fun jj => rfl) (Ne.symm hd)
          exact this.trans hj
  | cancel jobId =>
    simp only [iterStep]
    unfold cancelIteratorJob
    split
    · exact Or.inl hj
    · rename_i j0 hfound
      split
      · exact Or.inl hj
      · rename_i hnterm
        by_cases hd : j0.docId = d
        · exfalso
          have hj0mem : j0 ∈ s.iteratorJobs := List.mem_of_find?_eq_some hfound
          have heqj : j0 = j := distinct_mem_docId_eq s.iteratorJobs hdid hj0mem hjmem
            (by rw [hd, hjd])
          rw [heqj] at hnterm
          exact hnterm hterm
        · left
          have := getJobByDocId_patchJob_ne s j0.docId d
            (fun jj => { jj with
              status := JobStatus.failed
              errorMessage := some "Cancelled by user" })
            (fun jj => rfl) (Ne.symm hd)
          exact this.trans hj
  | deleteJob jobId =>
    simp only [iterStep]
    unfold deleteIteratorJob
    split
    · exact Or.inl hj
    · rename_i j0 hfound
      split
      · exact Or.inl hj
      · by_cases hd : j0.docId = d
        · right
          unfold getJobByDocId
          rw [List.find?_eq_none]
          intro x hx
          have hq := (List.mem_filter.mp hx).2
          simp only [Bool.not_eq_eq_eq_not, Bool.not_true, decide_eq_false_iff_not] at hq
          simp only [decide_eq_true_eq]
          intro hxd
          exact hq (hxd.trans hd.symm)
        · left
          unfold getJobByDocId at hj ⊢
          exact find?_filter_of_find? _ _ _ _ hj (by simp [hjd, Ne.symm hd])
  | load jobDocId =>
    simp only [iterStep]
    unfold processLoad
    split <;> exact Or.inl hj
  | finish snap o =>
    simp only [iterStep]
    rcases hk snap o rfl with hsnap | hsnap
    · left
      exact (getJobByDocId_congr _ _
        (processFinish_jobs_not_running snap o now s hsnap) d).trans hj
    · left
      exact (processFinish_getJob_ne snap o now s d (Ne.symm hsnap)).trans hj

def c8job : IteratorJob :=
  { docId := 0, jobId := "j", cursor := none, processedCount := 5,
    status := JobStatus.completed,
    config := { batchSize := 10, delayBetweenBatchesMs := 50, getNextBatchHandle := "g",
                processBatchHandle := "p", onCompleteHandle := none, maxRetries := none },
    retryCount := 0, errorMessage := none, createdAt := 0, lastRunAt := 0 }

def c8s : Sys := { Sys.empty with iteratorJobs := [c8job], nextId := 1 }

/-- Witness for the amended C8 theorem: `cancelIteratorJob` on a concrete
completed job leaves its record untouched. -/
theorem terminal_job_status_stable_witness :
    getJobByDocId (iterStep (IterStep.cancel "j") 7 c8s) 0 = some c8job ∨
    getJobByDocId (iterStep (IterStep.cancel "j") 7 c8s) 0 = none :=
  terminal_job_status_stable (IterStep.cancel "j") 7 c8s 0 c8job
    (by unfold DistinctJobIds c8s; simp) (by decide) (Or.inl rfl)
    (fun snap o h => by cases h)

def c8startCfg : StartIteratorConfig :=
  { batchSize := 10, delayBetweenBatchesMs := some 50, getNextBatchHandle := "g",
    processBatchHandle := "p", onCompleteHandle := none, maxRetries := some 3 }

def c8snap : IteratorJob :=
  { docId := 0, jobId := "j", cursor := none, processedCount := 0,
    status := JobStatus.running,
    config := { batchSize := 10, delayBetweenBatchesMs := 50, getNextBatchHandle := "g",
                processBatchHandle := "p", onCompleteHandle := none, maxRetries := some 3 },
    retryCount := 0, errorMessage := none, createdAt := 0, lastRunAt := 0 }

def c8i1 : Sys := iterStep (IterStep.start "j" c8startCfg) 0 Sys.empty

def c8i2 : Sys := iterStep (IterStep.load 0) 1 c8i1

def c8i3 : Sys := iterStep (IterStep.cancel "j") 2 c8i2

def c8i4 : Sys := iterStep (IterStep.finish c8snap (PageOutcome.page [] none true)) 3 c8i3

/-- C8 counterexample: a terminal status is overwritten by an in-flight
`processNextBatch`.  `startIteratorJob` creates a running job and a
`processNextBatch` round loads it (snapshot status `running`); then
`cancelIteratorJob` marks the job `failed` (terminal); when the in-flight
round finishes with a final page, `markJobCompleted` patches the job
unconditionally, moving it from `failed` to `completed`. -/
theorem terminal_failed_overwritten_to_completed :
    (getJobByDocId c8i3 0).map IteratorJob.status = some JobStatus.failed ∧
    (getJobByDocId c8i4 0).map IteratorJob.status = some JobStatus.completed := by
  decide

theorem resumeIteratorJob_state (jobId : String) (s : Sys) (j₀ : IteratorJob)
    (hfound : getJobByJobId s jobId = some j₀) (hpaused : j₀.status = JobStatus.paused) :
    (resumeIteratorJob jobId s).2 =
      (scheduleTask (patchJob s j₀.docId
        (fun j => { j with status := JobStatus.running, retryCount := 0 })) 0
        (TaskCall.processNextBatch j₀.docId)).2 := by
  unfold resumeIteratorJob
  rw [hfound]
  simp [hpaused]

theorem processFinish_missing_state (snap : IteratorJob) (o : PageOutcome) (now : Nat)
    (s : Sys) (hin : snap ∈ s.inflight) (hrun : snap.status = JobStatus.running)
    (hnone : getJobByDocId ({ s with inflight := s.inflight.erase snap } : Sys)
      snap.docId = none) :
    processFinish snap o now s = { s with inflight := s.inflight.erase snap } := by
  unfold processFinish
  rw [if_pos hin]
  simp [hrun, hnone]

theorem processFinish_done_state (snap : IteratorJob) (items : List Nat)
    (cur : Option String) (now : Nat) (s : Sys) (j₀ : IteratorJob)
    (hin : snap ∈ s.inflight) (hrun : snap.status = JobStatus.running)
    (hex : getJobByDocId ({ s with inflight := s.inflight.erase snap } : Sys)
      snap.docId = some j₀) :
    processFinish snap (PageOutcome.page items cur true) now s =
      patchJob ({ s with inflight := s.inflight.erase snap } : Sys) snap.docId
        (fun j => { j with
          status := JobStatus.completed
          processedCount := snap.processedCount + items.length
          lastRunAt := now }) := by
  unfold processFinish
  rw [if_pos hin]
  simp [hrun, hex]

theorem processFinish_progress_state (snap : IteratorJob) (items : List Nat)
    (cur : Option String) (now : Nat) (s : Sys) (j₀ : IteratorJob)
    (hin : snap ∈ s.inflight) (hrun : snap.status = JobStatus.running)
    (hex : getJobByDocId ({ s with inflight := s.inflight.erase snap } : Sys)
      snap.docId = some j₀) :
    processFinish snap (PageOutcome.page items cur false) now s =
      (scheduleTask
        (patchJob ({ s with inflight := s.inflight.erase snap } : Sys) snap.docId
          (fun j => { j with
            cursor := cur
            processedCount := snap.processedCount + items.length
            lastRunAt := now
            retryCount := 0 }))
        snap.config.delayBetweenBatchesMs (TaskCall.processNextBatch snap.docId)).2 := by
  unfold processFinish
  rw [if_pos hin]
  simp [hrun, hex]

/-- C7 (amended): `retryCount` is 0 immediately after `startIteratorJob`
creates the job, after a successful page that is *not* the final one
(`updateJobProgress` resets it), and after `resumeIteratorJob`; a
successful final page (`markJobCompleted`) leaves `retryCount` unchanged,
so a job can end `completed` with a nonzero `retryCount` (see the
counterexample). -/
theorem retryCount_reset_points :
    (∀ (jobId : String) (config : StartIteratorConfig) (now : Nat) (s : Sys)
        (j' : IteratorJob),
      j' ∈ (startIteratorJob jobId config now s).2.iteratorJobs →
      j' ∈ s.iteratorJobs ∨ j'.retryCount = 0) ∧
    (∀ (jobId : String) (s : Sys) (j₀ j' : IteratorJob),
      getJobByJobId s jobId = some j₀ → j₀.status = JobStatus.paused →
      getJobByDocId (resumeIteratorJob jobId s).2 j₀.docId = some j' →
      j'.retryCount = 0) ∧
    (∀ (snap : IteratorJob) (items : List Nat) (cur : Option String) (now : Nat)
        (s : Sys) (j' : IteratorJob),
      snap.status = JobStatus.running →
      getJobByDocId
        (processFinish snap (PageOutcome.page items cur false) now s) snap.docId =
          some j' →
      j' ∈ s.iteratorJobs ∨ j'.retryCount = 0) ∧
    (∀ (snap : IteratorJob) (items : List Nat) (cur : Option String) (now : Nat)
        (s : Sys) (j₀ j' : IteratorJob),
      snap ∈ s.inflight → snap.status = JobStatus.running →
      getJobByDocId s snap.docId = some j₀ →
      getJobByDocId
        (processFinish snap (PageOutcome.page items cur true) now s) snap.docId =
          some j' →
      j'.status = JobStatus.completed ∧ j'.retryCount = j₀.retryCount) := by
  refine ⟨?_, ?_, ?_, ?_⟩
  · intro jobId config now s j' hmem
    unfold startIteratorJob at hmem
    rcases hex : getJobByJobId s jobId with _ | j0
    · rw [hex] at hmem
      simp only at hmem
      rcases List.mem_append.mp hmem with hold | hnew
      · exact Or.inl hold
      · right
        simp only [List.mem_singleton] at hnew
        rw [hnew]
    · rw [hex] at hmem
      exact Or.inl hmem
  · intro jobId s j₀ j' hfound hpaused hlook
    rw [resumeIteratorJob_state jobId s j₀ hfound hpaused] at hlook
    have hlook2 : getJobByDocId
        (patchJob s j₀.docId
          (fun j => { j with status := JobStatus.running, retryCount := 0 })) j₀.docId =
        some j' := hlook
    rw [getJobByDocId_patchJob s j₀.docId
      (fun j => { j with status := JobStatus.running, retryCount := 0 })
      (fun j => rfl)] at hlook2
    rcases Option.map_eq_some'.mp hlook2 with ⟨jx, hjx, hj'⟩
    have hjxd : jx.docId = j₀.docId := by
      have := List.find?_some hjx
      simpa using this
    rw [if_pos hjxd] at hj'
    rw [← hj']
  · intro snap items cur now s j' hrun hlook
    by_cases hin : snap ∈ s.inflight
    · rcases hex : getJobByDocId ({ s with inflight := s.inflight.erase snap } : Sys)
          snap.docId with _ | j0
      · rw [processFinish_missing_state snap _ now s hin hrun hex] at hlook
        exact Or.inl (List.mem_of_find?_eq_some hlook)
      · rw [processFinish_progress_state snap items cur now s j0 hin hrun hex] at hlook
        right
        have hlook2 : getJobByDocId
            (patchJob ({ s with inflight := s.inflight.erase snap } : Sys) snap.docId
              (fun j => { j with
                cursor := cur
                processedCount := snap.processedCount + items.length
                lastRunAt := now
                retryCount := 0 })) snap.docId = some j' := hlook
        rw [getJobByDocId_patchJob _ snap.docId
          (fun j => { j with
            cursor := cur
            processedCount := snap.processedCount + items.length
            lastRunAt := now
            retryCount := 0 })
          (fun j => rfl)] at hlook2
        rcases Option.map_eq_some'.mp hlook2 with ⟨jx, hjx, hj'⟩
        have hjxd : jx.docId = snap.docId := by
          have := List.find?_some hjx
          simpa using this
        rw [if_pos hjxd] at hj'
        rw [← hj']
    · unfold processFinish at hlook
      rw [if_neg hin] at hlook
      exact Or.inl (List.mem_of_find?_eq_some hlook)
  · intro snap items cur now s j₀ j' hin hrun hex hlook
    have hex0 : getJobByDocId ({ s with inflight := s.inflight.erase snap } : Sys)
        snap.docId = some j₀ := hex
    rw [processFinish_done_state snap items cur now s j₀ hin hrun hex0] at hlook
    rw [getJobByDocId_patchJob _ snap.docId
      (fun j => { j with
        status := JobStatus.completed
        processedCount := snap.processedCount + items.length
        lastRunAt := now })
      (fun j => rfl), hex0] at hlook
    rw [Option.map_some'] at hlook
    injection hlook with hlook
    have hj0d : j₀.docId = snap.docId := by
      have := List.find?_some hex
      simpa using this
    rw [if_pos hj0d] at hlook
    rw [← hlook]
    exact ⟨rfl, rfl⟩

def c7cfg : IteratorConfig :=
  { batchSize := 1, delayBetweenBatchesMs := 100, getNextBatchHandle := "g",
    processBatchHandle := "p", onCompleteHandle := none, maxRetries := none }

def c7job : IteratorJob :=
  { docId := 0, jobId := "j", cursor := none, processedCount := 0,
    status := JobStatus.paused, config := c7cfg, retryCount := 2,
    errorMessage := none, createdAt := 0, lastRunAt := 0 }

def c7s : Sys := { Sys.empty with iteratorJobs := [c7job], nextId := 1 }

def c7resumed : IteratorJob := { c7job with status := JobStatus.running, retryCount := 0 }

def c7djob : IteratorJob :=
  { docId := 0, jobId := "j", cursor := none, processedCount := 0,
    status := JobStatus.running, config := c7cfg, retryCount := 2,
    errorMessage := none, createdAt := 0, lastRunAt := 0 }

def c7ds : Sys :=
  { Sys.empty with iteratorJobs := [c7djob], inflight := [c7djob], nextId := 1 }

def c7completed : IteratorJob :=
  { c7djob with status := JobStatus.completed, processedCount := 1, lastRunAt := 9 }

/-- Witness for the amended C7 theorem: resuming a concrete paused job
with `retryCount = 2` resets it to 0, while a final successful page on a
running job with `retryCount = 2` completes the job keeping
`retryCount = 2`. -/
theorem retryCount_reset_points_witness :
    c7resumed.retryCount = 0 ∧
    (c7completed.status = JobStatus.completed ∧ c7completed.retryCount = c7djob.retryCount) :=
  ⟨retryCount_reset_points.2.1 "j" c7s c7job c7resumed (by decide) (by decide) (by decide),
   retryCount_reset_points.2.2.2 c7djob [5] none 9 c7ds c7djob c7completed
     (by decide) (by decide) (by decide) (by decide)⟩

def c7startCfg : StartIteratorConfig :=
  { batchSize := 1, delayBetweenBatchesMs := some 100, getNextBatchHandle := "g",
    processBatchHandle := "p", onCompleteHandle := none, maxRetries := some 5 }

def c7snap0 : IteratorJob :=
  { docId := 0, jobId := "k", cursor := none, processedCount := 0,
    status := JobStatus.running,
    config := { batchSize := 1, delayBetweenBatchesMs := 100, getNextBatchHandle := "g",
                processBatchHandle := "p", onCompleteHandle := none, maxRetries := some 5 },
    retryCount := 0, errorMessage := none, createdAt := 0, lastRunAt := 0 }

def c7snap1 : IteratorJob :=
  { c7snap0 with retryCount := 1, errorMessage := some "x", lastRunAt := 2 }

def c7x1 : Sys := iterStep (IterStep.start "k" c7startCfg) 0 Sys.empty

def c7x2 : Sys := iterStep (IterStep.load 0) 1 c7x1

def c7x3 : Sys := iterStep (IterStep.finish c7snap0 (PageOutcome.failure "x")) 2 c7x2

def c7x4 : Sys := iterStep (IterStep.load 0) 3 c7x3

def c7x5 : Sys := iterStep (IterStep.finish c7snap1 (PageOutcome.page [7] none true)) 4 c7x4

/-- C7 counterexample: a page fails once (`retryCount` becomes 1), then
the retry succeeds with `done = true`; `markJobCompleted` does not reset
`retryCount`, so the job ends `completed` with `retryCount = 1`,
contradicting "retryCount equals 0 immediately after any page whose
callbacks succeed (including the final page)". -/
theorem completed_job_with_nonzero_retryCount :
    (getJobByDocId c7x5 0).map (fun j => (j.status, j.retryCount)) =
      some (JobStatus.completed, 1) := by decide

/-! ### C6: callback failure during a flush -/

theorem getBatch_congr (s t : Sys) (h : s.batches = t.batches) (d : Nat) :
    getBatch s d = getBatch t d := by
  unfold getBatch
  rw [h]

theorem executeFlushRun_nonempty_state (batchDocId : Nat) (ok : Bool)
    (err : Option String) (dur tCollect tRecord : Nat) (s : Sys)
    (hne : (collectBatchItems batchDocId tCollect s).1 ≠ []) :
    executeFlushRun batchDocId ok err dur tCollect tRecord s =
      (⟨some (collectBatchItems batchDocId tCollect s).1, ok⟩,
        recordFlushResult batchDocId (collectBatchItems batchDocId tCollect s).1.length dur
          ok (if ok then none else err) (collectBatchItems batchDocId tCollect s).2
          tRecord s) := by
  simp only [executeFlushRun]
  rw [if_neg (by simpa using hne)]

theorem recordFlushResult_failure_state (batchDocId ic dur : Nat) (err : Option String)
    (fsa : Option Nat) (now : Nat) (s : Sys) (b : Batch)
    (hb : getBatch s batchDocId = some b) :
    recordFlushResult batchDocId ic dur false err fsa now s =
      recordFlushFailureArm b batchDocId
        { s with flushHistory := s.flushHistory ++ [⟨b.baseBatchId, ic, now, dur, false, err⟩] } := by
  unfold recordFlushResult
  rw [hb]
  simp

def c6cfg : BatchConfig := ⟨none, none, 5, "pb"⟩

def c6batch : Batch :=
  ⟨0, "e_0", "e", 0, 0, 0, BatchStatus.flushing, c6cfg, none, some 2⟩

def c6s : Sys := ⟨[c6batch], [⟨1, 0, [10], 1, 1⟩], [], [], [], [], 2⟩

/-- C6: on every flush attempt in which the `processBatch` callback
raises (some chunks were collected, so the callback was invoked, and an
actual callback is configured), the executor records a `flushHistory`
entry with `success = false` carrying the error message, deletes no
chunk (`batchItems` is exactly what it was), reverts the batch to
`accumulating` clearing `flushStartedAt`, and re-arms the interval timer
if and only if `flushIntervalMs > 0`, storing the new handle.  The
execution returns normally (it is a total function in this model): the
error is recorded, never re-raised toward the `addItems`/`flush` callers,
which returned long before. -/
theorem executeFlush_failure_reverts (batchDocId : Nat) (msg : String)
    (durationMs tCollect now : Nat) (s : Sys) (b : Batch)
    (hb : getBatch s batchDocId = some b)
    (hitems : (collectBatchItems batchDocId tCollect s).1 ≠ [])
    (hhandle : b.config.processBatchHandle ≠ "") :
    (executeFlushRun batchDocId false (some msg) durationMs tCollect now s).1 =
      ⟨some (collectBatchItems batchDocId tCollect s).1, false⟩ ∧
    (executeFlushRun batchDocId false (some msg) durationMs tCollect now s).2.batchItems =
      s.batchItems ∧
    (executeFlushRun batchDocId false (some msg) durationMs tCollect now s).2.flushHistory =
      s.flushHistory ++ [⟨b.baseBatchId, (collectBatchItems batchDocId tCollect s).1.length,
        now, durationMs, false, some msg⟩] ∧
    getBatch (executeFlushRun batchDocId false (some msg) durationMs tCollect now s).2
        batchDocId =
      some { b with
        status := BatchStatus.accumulating
        flushStartedAt := none
        scheduledFlushId :=
          if 0 < b.config.flushIntervalMs then some s.nextId else none } ∧
    (executeFlushRun batchDocId false (some msg) durationMs tCollect now s).2.tasks =
      s.tasks ++
        (if 0 < b.config.flushIntervalMs then
          [⟨s.nextId, b.config.flushIntervalMs, TaskCall.maybeFlush batchDocId true⟩]
        else []) := by
  have hbd : b.docId = batchDocId := by
    have := List.find?_some hb
    simpa using this
  have hrun := executeFlushRun_nonempty_state batchDocId false (some msg) durationMs
    tCollect now s hitems
  have hstate2 : (executeFlushRun batchDocId false (some msg) durationMs tCollect now s).2 =
      recordFlushFailureArm b batchDocId
        { s with flushHistory := s.flushHistory ++
          [⟨b.baseBatchId, (collectBatchItems batchDocId tCollect s).1.length, now,
            durationMs, false, some msg⟩] } := by
    rw [hrun]
    exact recordFlushResult_failure_state batchDocId
      (collectBatchItems batchDocId tCollect s).1.length durationMs (some msg)
      (collectBatchItems batchDocId tCollect s).2 now s b hb
  refine ⟨by rw [hrun], ?_, ?_, ?_, ?_⟩
  · rw [hstate2]
    unfold recordFlushFailureArm
    by_cases hfi : b.config.flushIntervalMs > 0
    · rw [if_pos ⟨hfi, hhandle⟩]
      rfl
    · rw [if_neg (fun hc => hfi hc.1)]
      rfl
  · rw [hstate2]
    unfold recordFlushFailureArm
    by_cases hfi : b.config.flushIntervalMs > 0
    · rw [if_pos ⟨hfi, hhandle⟩]
      rfl
    · rw [if_neg (fun hc => hfi hc.1)]
      rfl
  · rw [hstate2]
    unfold recordFlushFailureArm
    by_cases hfi : b.config.flushIntervalMs > 0
    · rw [if_pos ⟨hfi, hhandle⟩]
      rw [if_pos hfi]
      rw [getBatch_patchBatch]
      · rw [getBatch_congr _ s (by rfl) batchDocId, hb, Option.map_some']
        simp [hbd, scheduleTask]
      · intro bb
        rfl
    · rw [if_neg (fun hc => hfi hc.1)]
      rw [if_neg hfi]
      rw [getBatch_patchBatch]
      · rw [getBatch_congr _ s (by rfl) batchDocId, hb, Option.map_some']
        simp [hbd]
      · intro bb
        rfl
  · rw [hstate2]
    unfold recordFlushFailureArm
    by_cases hfi : b.config.flushIntervalMs > 0
    · rw [if_pos ⟨hfi, hhandle⟩]
      rw [if_pos hfi]
      rfl
    · rw [if_neg (fun hc => hfi hc.1)]
      rw [if_neg hfi, tasks_patchBatch]
      simp

/-- Witness for C6 at a concrete flushing batch with one collectable chunk. -/
theorem executeFlush_failure_reverts_witness :
    getBatch c6s 0 = some c6batch ∧
    (collectBatchItems 0 7 c6s).1 ≠ [] ∧
    c6batch.config.processBatchHandle ≠ "" ∧
    (executeFlushRun 0 false (some "boom") 3 7 9 c6s).2.batchItems = c6s.batchItems :=
  ⟨by decide, by decide, by decide,
    (executeFlush_failure_reverts 0 "boom" 3 7 9 c6s c6batch
      (by decide) (by decide) (by decide)).2.1⟩

/-! ## C2: the success path of the flush executor -/

/-- The chunks of this batch created strictly after the cutoff: what the
`remainingItems` query of `recordFlushResult` sees after the deletion
loop removed every chunk at or before the cutoff. -/
def strandedChunks (s : Sys) (batchDocId T : Nat) : List BatchItemChunk :=
  s.batchItems.filter (fun c => decide (c.batchDocId = batchDocId ∧ T < c.createdAt))

theorem chunksOf_deleteConsumedChunks (batchDocId T : Nat) (s1 : Sys) :
    chunksOf (deleteConsumedChunks batchDocId T s1) batchDocId =
      s1.batchItems.filter (fun c => decide (c.batchDocId = batchDocId ∧ T < c.createdAt)) := by
  unfold chunksOf deleteConsumedChunks
  rw [List.filter_filter]
  refine List.filter_congr ?_
  intro c _
  by_cases h1 : c.batchDocId = batchDocId
  · by_cases h2 : T < c.createdAt
    · simp [h1, h2, Nat.lt_succ_iff, not_le.mpr h2]
    · simp [h1, h2, Nat.lt_succ_iff, Nat.not_lt.mp h2]
  · simp [h1]

theorem deleteConsumedChunks_batchItems_le (batchDocId T : Nat) (s1 : Sys) :
    (deleteConsumedChunks batchDocId T s1).batchItems =
      s1.batchItems.filter (fun c => !decide (c.batchDocId = batchDocId ∧ c.createdAt ≤ T)) := by
  unfold deleteConsumedChunks
  refine List.filter_congr ?_
  intro c _
  simp [Nat.lt_succ_iff]

theorem batch_distinct_mem_docId_eq (l : List Batch)
    (hdid : l.Pairwise (fun a c => a.docId ≠ c.docId)) {a b : Batch}
    (ha : a ∈ l) (hb : b ∈ l) (h : a.docId = b.docId) : a = b := by
  by_contra hne
  exact (List.Pairwise.forall (fun _ _ hxy => Ne.symm hxy) hdid ha hb hne) h

instance : IsTotal Batch (fun a b => b.sequence ≤ a.sequence) :=
  ⟨fun a b => Nat.le_total b.sequence a.sequence⟩

instance : IsTrans Batch (fun a b => b.sequence ≤ a.sequence) :=
  ⟨fun _ _ _ hab hbc => Nat.le_trans hbc hab⟩

theorem recordFlushRevertArm_state (b : Batch) (bd rc : Nat) (s3 : Sys) :
    recordFlushRevertArm b bd rc s3 =
      if thresholdHit b.config rc then
        { s3 with tasks := s3.tasks ++ [⟨s3.nextId, 0, TaskCall.maybeFlush bd false⟩]
                  nextId := s3.nextId + 1 }
      else if b.config.flushIntervalMs > 0 then
        patchBatch
          { s3 with tasks := s3.tasks ++ [⟨s3.nextId, b.config.flushIntervalMs,
              TaskCall.maybeFlush bd true⟩]
                    nextId := s3.nextId + 1 }
          bd (fun x => { x with scheduledFlushId := some s3.nextId })
      else s3 := by
  unfold recordFlushRevertArm
  by_cases h1 : thresholdHit b.config rc = true
  · rw [if_pos h1, if_pos h1]
    rfl
  · rw [if_neg h1, if_neg h1]
    by_cases h2 : b.config.flushIntervalMs > 0
    · rw [if_pos h2, if_pos h2]
      rfl
    · rw [if_neg h2, if_neg h2]

theorem recordFlushRevertArm_batchItems (b : Batch) (bd rc : Nat) (s3 : Sys) :
    (recordFlushRevertArm b bd rc s3).batchItems = s3.batchItems := by
  unfold recordFlushRevertArm
  split
  · rfl
  · split
    · rfl
    · rfl

theorem recordFlushResult_success_stranded_state (batchDocId ic dur T now : Nat)
    (s : Sys) (b : Batch) (hb : getBatch s batchDocId = some b)
    (hrem : 0 < sumItemCount (strandedChunks s batchDocId T)) :
    recordFlushResult batchDocId ic dur true none (some T) now s =
      recordFlushRevertArm b batchDocId (sumItemCount (strandedChunks s batchDocId T))
        (patchBatch
          (deleteConsumedChunks batchDocId T
            { s with flushHistory := s.flushHistory ++
              [⟨b.baseBatchId, ic, now, dur, true, none⟩] })
          batchDocId
          (fun x => { x with
            status := BatchStatus.accumulating
            flushStartedAt := none
            lastUpdatedAt := now })) := by
  have hchunks : chunksOf (deleteConsumedChunks batchDocId T
      { s with flushHistory := s.flushHistory ++
        [⟨b.baseBatchId, ic, now, dur, true, none⟩] }) batchDocId =
      strandedChunks s batchDocId T :=
    chunksOf_deleteConsumedChunks batchDocId T _
  unfold recordFlushResult
  rw [hb]
  simp only [hchunks]
  rw [if_pos hrem]
  rw [if_pos True.intro]

theorem recordFlushResult_success_complete_state (batchDocId ic dur T now : Nat)
    (s : Sys) (b : Batch) (hb : getBatch s batchDocId = some b)
    (hrem : sumItemCount (strandedChunks s batchDocId T) = 0) :
    recordFlushResult batchDocId ic dur true none (some T) now s =
      pruneOldCompleted b.baseBatchId
        (patchBatch
          (deleteConsumedChunks batchDocId T
            { s with flushHistory := s.flushHistory ++
              [⟨b.baseBatchId, ic, now, dur, true, none⟩] })
          batchDocId
          (fun x => { x with
            status := BatchStatus.completed
            flushStartedAt := none
            lastUpdatedAt := now })) := by
  have hchunks : chunksOf (deleteConsumedChunks batchDocId T
      { s with flushHistory := s.flushHistory ++
        [⟨b.baseBatchId, ic, now, dur, true, none⟩] }) batchDocId =
      strandedChunks s batchDocId T :=
    chunksOf_deleteConsumedChunks batchDocId T _
  unfold recordFlushResult
  rw [hb]
  simp only [hchunks]
  rw [if_neg (show ¬0 < sumItemCount (strandedChunks s batchDocId T) by
    rw [hrem]; exact Nat.lt_irrefl 0)]
  rw [if_pos True.intro]

/-- Characterization of the ids deleted by the cleanup loop of the
completed branch: sorting the completed generations by sequence descending
and dropping the head removes exactly the non-maximal ones, provided one
element is the strict maximum. -/
theorem prune_dIds_mem (L : List Batch) (base : String) (bP : Batch)
    (hP : bP ∈ L) (hPb : bP.baseBatchId = base) (hPs : bP.status = BatchStatus.completed)
    (hdisL : L.Pairwise (fun a c => a.docId ≠ c.docId))
    (hmaxL : ∀ x ∈ L, x.baseBatchId = base → x.status = BatchStatus.completed →
      x ≠ bP → x.sequence < bP.sequence) :
    ∀ d, (d ∈ ((((L.filter (fun x => decide (x.baseBatchId = base ∧
        x.status = BatchStatus.completed))).insertionSort
        (fun a b => b.sequence ≤ a.sequence)).drop 1).map (fun b => b.docId))) ↔
      ∃ x ∈ L, x.baseBatchId = base ∧ x.status = BatchStatus.completed ∧
        x ≠ bP ∧ x.docId = d := by
  intro d
  set pC : Batch → Bool := fun x => decide (x.baseBatchId = base ∧
    x.status = BatchStatus.completed) with hpC
  set cb : List Batch := L.filter pC with hcb
  have hcbP : bP ∈ cb := List.mem_filter.mpr ⟨hP, by simp [hpC, hPb, hPs]⟩
  set sorted : List Batch := cb.insertionSort (fun a b => b.sequence ≤ a.sequence)
    with hsortedEq
  have hperm : sorted.Perm cb := List.perm_insertionSort _ cb
  have hsort : sorted.Sorted (fun a b => b.sequence ≤ a.sequence) :=
    List.sorted_insertionSort _ cb
  have hne : sorted ≠ [] := List.ne_nil_of_mem (hperm.mem_iff.mpr hcbP)
  obtain ⟨h0, t, hcons⟩ := List.exists_cons_of_ne_nil hne
  have hnd : cb.Nodup := (hdisL.imp (fun h heq => h (congrArg Batch.docId heq))).filter _
  have hndS : sorted.Nodup := hperm.nodup_iff.mpr hnd
  have hmax' : ∀ x ∈ cb, x ≠ bP → x.sequence < bP.sequence := by
    intro x hx hne'
    obtain ⟨hxL, hxP⟩ := List.mem_filter.mp hx
    have hp := of_decide_eq_true hxP
    exact hmaxL x hxL hp.1 hp.2 hne'
  have hh0 : h0 = bP := by
    have hh0mem : h0 ∈ cb := hperm.mem_iff.mp (hcons ▸ List.mem_cons_self h0 t)
    by_contra hneq
    have hlt := hmax' h0 hh0mem hneq
    have hbPs : bP ∈ sorted := hperm.mem_iff.mpr hcbP
    rw [hcons] at hbPs
    rcases List.mem_cons.mp hbPs with he | ht
    · exact hneq he.symm
    · have hle : bP.sequence ≤ h0.sequence := by
        have hs := hcons ▸ hsort
        exact (List.sorted_cons.mp hs).1 bP ht
      exact absurd hle (Nat.not_le.mpr hlt)
  have htmem : ∀ x, x ∈ t ↔ x ∈ cb ∧ x ≠ bP := by
    intro x
    constructor
    · intro hx
      have hxs : x ∈ sorted := hcons ▸ List.mem_cons_of_mem h0 hx
      refine ⟨hperm.mem_iff.mp hxs, ?_⟩
      intro hxb
      have hh0t : h0 ∉ t := by
        have hnds2 := hcons ▸ hndS
        exact (List.nodup_cons.mp hnds2).1
      exact hh0t (by rw [hh0, ← hxb]; exact hx)
    · rintro ⟨hxcb, hxne⟩
      have hxs : x ∈ sorted := hperm.mem_iff.mpr hxcb
      rw [hcons] at hxs
      rcases List.mem_cons.mp hxs with he | ht'
      · exact absurd (he.trans hh0) hxne
      · exact ht'
  rw [hcons]
  simp only [List.drop_one, List.tail_cons]
  constructor
  · intro hd
    obtain ⟨x, hxt, hxd⟩ := List.mem_map.mp hd
    obtain ⟨hxcb, hxne⟩ := (htmem x).mp hxt
    obtain ⟨hxL, hxP⟩ := List.mem_filter.mp hxcb
    have hp := of_decide_eq_true hxP
    exact ⟨x, hxL, hp.1, hp.2, hxne, hxd⟩
  · rintro ⟨x, hxL, hxb, hxs, hxne, hxd⟩
    refine List.mem_map.mpr ⟨x, ?_, hxd⟩
    exact (htmem x).mpr ⟨List.mem_filter.mpr ⟨hxL, by simp [hpC, hxb, hxs]⟩, hxne⟩

/-- The completed branch of `recordFlushResult`, applied to a batch with
the strictly greatest sequence among completed generations of its base id,
keeps exactly that batch among them: the other completed generations and
their chunks are the ones deleted. -/
theorem pruneOldCompleted_newest (s2 : Sys) (batchDocId now : Nat) (b : Batch)
    (hmem : b ∈ s2.batches) (hbd : b.docId = batchDocId)
    (hdis : s2.batches.Pairwise (fun a c => a.docId ≠ c.docId))
    (hmax : ∀ x ∈ s2.batches, x.docId ≠ batchDocId →
      x.baseBatchId = b.baseBatchId → x.status = BatchStatus.completed →
      x.sequence < b.sequence) :
    (pruneOldCompleted b.baseBatchId
        (patchBatch s2 batchDocId (fun x => { x with
          status := BatchStatus.completed
          flushStartedAt := none
          lastUpdatedAt := now }))).batches =
      (s2.batches.map (fun x => if x.docId = batchDocId then { x with
          status := BatchStatus.completed
          flushStartedAt := none
          lastUpdatedAt := now } else x)).filter
        (fun x => !decide (x.baseBatchId = b.baseBatchId ∧
          x.status = BatchStatus.completed ∧ x.docId ≠ batchDocId)) ∧
    (pruneOldCompleted b.baseBatchId
        (patchBatch s2 batchDocId (fun x => { x with
          status := BatchStatus.completed
          flushStartedAt := none
          lastUpdatedAt := now }))).batchItems =
      s2.batchItems.filter (fun c => !decide (∃ x ∈ s2.batches,
        x.docId ≠ batchDocId ∧ x.baseBatchId = b.baseBatchId ∧
        x.status = BatchStatus.completed ∧ x.docId = c.batchDocId)) := by
  set g : Batch → Batch := fun x => if x.docId = batchDocId then { x with
      status := BatchStatus.completed
      flushStartedAt := none
      lastUpdatedAt := now } else x with hg
  set bP : Batch := { b with
      status := BatchStatus.completed
      flushStartedAt := none
      lastUpdatedAt := now } with hbP
  have hgb : g b = bP := by rw [hg, hbP]; simp [hbd]
  have hPdoc : bP.docId = batchDocId := by rw [hbP]; exact hbd
  have hgdoc : ∀ x, (g x).docId = x.docId := by
    intro x
    rw [hg]
    by_cases hh : x.docId = batchDocId <;> simp [hh]
  have hgid : ∀ y, y.docId ≠ batchDocId → g y = y := by
    intro y hy
    rw [hg]
    simp [hy]
  have hPmem : bP ∈ s2.batches.map g := hgb ▸ List.mem_map_of_mem g hmem
  have hdisL : (s2.batches.map g).Pairwise (fun a c => a.docId ≠ c.docId) := by
    rw [List.pairwise_map]
    exact hdis.imp (fun h => by rw [hgdoc, hgdoc]; exact h)
  have hkey : ∀ x, x ∈ s2.batches.map g → x ≠ bP →
      x ∈ s2.batches ∧ x.docId ≠ batchDocId := by
    intro x hx hne
    obtain ⟨y, hy, hgy⟩ := List.mem_map.mp hx
    by_cases hyd : y.docId = batchDocId
    · exfalso
      have hyb : y = b := batch_distinct_mem_docId_eq s2.batches hdis hy hmem
        (by rw [hyd, hbd])
      exact hne (by rw [← hgy, hyb, hgb])
    · have hxy : x = y := by rw [← hgy, hgid y hyd]
      exact ⟨by rw [hxy]; exact hy, by rw [hxy]; exact hyd⟩
  have hmaxL : ∀ x ∈ s2.batches.map g, x.baseBatchId = b.baseBatchId →
      x.status = BatchStatus.completed → x ≠ bP → x.sequence < bP.sequence := by
    intro x hx hxb hxs hne
    obtain ⟨hxmem, hxd⟩ := hkey x hx hne
    exact hmax x hxmem hxd hxb hxs
  have hdel := prune_dIds_mem (s2.batches.map g) b.baseBatchId bP hPmem
    (by rw [hbP]) (by rw [hbP]) hdisL hmaxL
  have hdelPrime : ∀ d, (d ∈ ((((s2.batches.map g).filter
        (fun x => decide (x.baseBatchId = b.baseBatchId ∧
          x.status = BatchStatus.completed))).insertionSort
        (fun a b => b.sequence ≤ a.sequence)).drop 1).map (fun x => x.docId)) ↔
      ∃ y ∈ s2.batches, y.docId ≠ batchDocId ∧ y.baseBatchId = b.baseBatchId ∧
        y.status = BatchStatus.completed ∧ y.docId = d := by
    intro d
    rw [hdel d]
    constructor
    · rintro ⟨x, hx, hxb, hxs, hxne, hxd⟩
      obtain ⟨hxmem, hxdoc⟩ := hkey x hx hxne
      exact ⟨x, hxmem, hxdoc, hxb, hxs, hxd⟩
    · rintro ⟨y, hy, hyd, hyb, hys, hydoc⟩
      refine ⟨y, ?_, hyb, hys, ?_, hydoc⟩
      · have hmm := List.mem_map_of_mem g hy
        rwa [hgid y hyd] at hmm
      · intro hyP
        exact hyd (by rw [hyP, hPdoc])
  refine ⟨?_, ?_⟩
  · rw [show (pruneOldCompleted b.baseBatchId (patchBatch s2 batchDocId (fun x => { x with
        status := BatchStatus.completed
        flushStartedAt := none
        lastUpdatedAt := now }))).batches =
      (s2.batches.map g).filter (fun x => !decide (x.docId ∈
        ((((s2.batches.map g).filter (fun x => decide (x.baseBatchId = b.baseBatchId ∧
          x.status = BatchStatus.completed))).insertionSort
          (fun a b => b.sequence ≤ a.sequence)).drop 1).map (fun x => x.docId))) from rfl]
    refine List.filter_congr ?_
    intro x hx
    refine congrArg Bool.not (decide_eq_decide.mpr ?_)
    constructor
    · intro hmemd
      obtain ⟨y, hy, hyd, hyb, hys, hydoc⟩ := (hdelPrime x.docId).mp hmemd
      obtain ⟨z, hz, hgz⟩ := List.mem_map.mp hx
      have hzy : z = y := batch_distinct_mem_docId_eq s2.batches hdis hz hy
        (by rw [hydoc, ← hgz, hgdoc])
      have hxy : x = y := by rw [← hgz, hzy, hgid y hyd]
      exact ⟨by rw [hxy]; exact hyb, by rw [hxy]; exact hys, by rw [hxy]; exact hyd⟩
    · rintro ⟨hxb, hxs, hxd⟩
      apply (hdelPrime x.docId).mpr
      have hxne : x ≠ bP := fun h => hxd (by rw [h, hPdoc])
      obtain ⟨hxmem, _⟩ := hkey x hx hxne
      exact ⟨x, hxmem, hxd, hxb, hxs, rfl⟩
  · rw [show (pruneOldCompleted b.baseBatchId (patchBatch s2 batchDocId (fun x => { x with
        status := BatchStatus.completed
        flushStartedAt := none
        lastUpdatedAt := now }))).batchItems =
      s2.batchItems.filter (fun c => !decide (c.batchDocId ∈
        ((((s2.batches.map g).filter (fun x => decide (x.baseBatchId = b.baseBatchId ∧
          x.status = BatchStatus.completed))).insertionSort
          (fun a b => b.sequence ≤ a.sequence)).drop 1).map (fun x => x.docId))) from rfl]
    refine List.filter_congr ?_
    intro c _
    exact congrArg Bool.not (decide_eq_decide.mpr (hdelPrime c.batchDocId))

theorem getBatch_addTask (s1 : Sys) (tid dms : Nat) (call : TaskCall) (d : Nat) :
    getBatch { s1 with
      tasks := s1.tasks ++ [⟨tid, dms, call⟩]
      nextId := s1.nextId + 1 } d = getBatch s1 d := rfl

theorem getBatch_deleteConsumedChunks (bd T : Nat) (s1 : Sys) (d : Nat) :
    getBatch (deleteConsumedChunks bd T s1) d = getBatch s1 d := rfl

theorem getBatch_setHistory (s1 : Sys) (h : List FlushHistoryEntry) (d : Nat) :
    getBatch { s1 with flushHistory := h } d = getBatch s1 d := rfl

/-- C2: a flush-executor run with a successful callback on a batch whose
transition stamped the cutoff `flushStartedAt = T` collects exactly the
items of the chunks with `createdAt ≤ T` (chunks created after the cutoff
are excluded), passes them to the callback when nonempty, and deletes
exactly those chunks; afterwards, when stranded chunks remain the batch is
reverted to `accumulating` (re-arming an immediate flush attempt when the
stranded count reaches the threshold, else the interval timer when
`flushIntervalMs > 0`), and when none remain the batch is marked
`completed` and the older completed generations of its base id — all of
strictly smaller sequence — are deleted together with their chunks,
keeping only this newest one. -/
theorem executeFlush_success_exact (batchDocId T dur tCollect tRecord : Nat)
    (s : Sys) (b : Batch)
    (hb : getBatch s batchDocId = some b)
    (hT : b.flushStartedAt = some T)
    (hdis : s.batches.Pairwise (fun a c => a.docId ≠ c.docId))
    (hmax : ∀ x ∈ s.batches, x.docId ≠ batchDocId →
      x.baseBatchId = b.baseBatchId → x.status = BatchStatus.completed →
      x.sequence < b.sequence) :
    (∀ v, v ∈ (collectBatchItems batchDocId tCollect s).1 ↔
      ∃ c ∈ s.batchItems, c.batchDocId = batchDocId ∧ c.createdAt ≤ T ∧ v ∈ c.items) ∧
    (executeFlushRun batchDocId true none dur tCollect tRecord s).1 =
      ⟨if (collectBatchItems batchDocId tCollect s).1.isEmpty then none
        else some (collectBatchItems batchDocId tCollect s).1, true⟩ ∧
    (0 < sumItemCount (strandedChunks s batchDocId T) →
      (executeFlushRun batchDocId true none dur tCollect tRecord s).2.batchItems =
        s.batchItems.filter (fun c => !decide (c.batchDocId = batchDocId ∧ c.createdAt ≤ T)) ∧
      getBatch (executeFlushRun batchDocId true none dur tCollect tRecord s).2 batchDocId =
        some { b with
          status := BatchStatus.accumulating
          flushStartedAt := none
          lastUpdatedAt := tRecord
          scheduledFlushId :=
            if thresholdHit b.config (sumItemCount (strandedChunks s batchDocId T)) then
              b.scheduledFlushId
            else if b.config.flushIntervalMs > 0 then some s.nextId
            else b.scheduledFlushId } ∧
      (executeFlushRun batchDocId true none dur tCollect tRecord s).2.tasks =
        s.tasks ++
          (if thresholdHit b.config (sumItemCount (strandedChunks s batchDocId T)) then
            [⟨s.nextId, 0, TaskCall.maybeFlush batchDocId false⟩]
          else if b.config.flushIntervalMs > 0 then
            [⟨s.nextId, b.config.flushIntervalMs, TaskCall.maybeFlush batchDocId true⟩]
          else [])) ∧
    (sumItemCount (strandedChunks s batchDocId T) = 0 →
      (executeFlushRun batchDocId true none dur tCollect tRecord s).2.batches =
        (s.batches.map (fun x => if x.docId = batchDocId then { x with
            status := BatchStatus.completed
            flushStartedAt := none
            lastUpdatedAt := tRecord } else x)).filter
          (fun x => !decide (x.baseBatchId = b.baseBatchId ∧
            x.status = BatchStatus.completed ∧ x.docId ≠ batchDocId)) ∧
      (executeFlushRun batchDocId true none dur tCollect tRecord s).2.batchItems =
        (s.batchItems.filter (fun c =>
            !decide (c.batchDocId = batchDocId ∧ c.createdAt ≤ T))).filter
          (fun c => !decide (∃ x ∈ s.batches, x.docId ≠ batchDocId ∧
            x.baseBatchId = b.baseBatchId ∧ x.status = BatchStatus.completed ∧
            x.docId = c.batchDocId))) := by
  have hbd : b.docId = batchDocId := by
    have hfs := List.find?_some hb
    simpa using hfs
  have hmemb : b ∈ s.batches := List.mem_of_find?_eq_some hb
  have hcol1 : (collectBatchItems batchDocId tCollect s).1 =
      (collectedChunkDocs s batchDocId T).flatMap (fun c => c.items) := by
    unfold collectBatchItems
    rw [hb]
    simp [hT]
  have hcol2 : (collectBatchItems batchDocId tCollect s).2 = some T := by
    unfold collectBatchItems
    rw [hb]
    simp [hT]
  have hrun2 : ∃ ic dur2,
      (executeFlushRun batchDocId true none dur tCollect tRecord s).2 =
        recordFlushResult batchDocId ic dur2 true none (some T) tRecord s := by
    simp only [executeFlushRun, ite_self]
    by_cases hE : (collectBatchItems batchDocId tCollect s).1.isEmpty = true
    · rw [if_pos hE]
      exact ⟨0, 0, by rw [hcol2]⟩
    · rw [if_neg hE]
      exact ⟨(collectBatchItems batchDocId tCollect s).1.length, dur, by rw [hcol2]⟩
  refine ⟨?_, ?_, ?_, ?_⟩
  · intro v
    rw [hcol1, List.mem_flatMap]
    constructor
    · rintro ⟨c, hc, hv⟩
      unfold collectedChunkDocs at hc
      rw [List.mem_insertionSort] at hc
      obtain ⟨hcm, hcp⟩ := List.mem_filter.mp hc
      have hp := of_decide_eq_true hcp
      exact ⟨c, hcm, hp.1, Nat.lt_succ_iff.mp hp.2, hv⟩
    · rintro ⟨c, hcm, h1, h2, hv⟩
      refine ⟨c, ?_, hv⟩
      unfold collectedChunkDocs
      rw [List.mem_insertionSort]
      exact List.mem_filter.mpr ⟨hcm, decide_eq_true ⟨h1, Nat.lt_succ_iff.mpr h2⟩⟩
  · simp only [executeFlushRun, ite_self]
    by_cases hE : (collectBatchItems batchDocId tCollect s).1.isEmpty = true
    · rw [if_pos hE, if_pos hE]
    · rw [if_neg hE, if_neg hE]
  · intro hrem
    obtain ⟨ic, dur2, hrun⟩ := hrun2
    have hstate := recordFlushResult_success_stranded_state batchDocId ic dur2 T tRecord
      s b hb hrem
    refine ⟨?_, ?_, ?_⟩
    · rw [hrun, hstate, recordFlushRevertArm_batchItems, batchItems_patchBatch,
        deleteConsumedChunks_batchItems_le]
    · rw [hrun, hstate, recordFlushRevertArm_state]
      by_cases hthr : thresholdHit b.config
          (sumItemCount (strandedChunks s batchDocId T)) = true
      · rw [if_pos hthr, if_pos hthr]
        rw [getBatch_addTask, getBatch_patchBatch, getBatch_deleteConsumedChunks,
          getBatch_setHistory, hb, Option.map_some']
        · simp [hbd]
        · intro x
          rfl
      · rw [if_neg hthr, if_neg hthr]
        by_cases hfi : b.config.flushIntervalMs > 0
        · rw [if_pos hfi, if_pos hfi]
          rw [getBatch_patchBatch]
          · rw [getBatch_addTask, getBatch_patchBatch, getBatch_deleteConsumedChunks,
              getBatch_setHistory, hb, Option.map_some']
            · simp [hbd, patchBatch, deleteConsumedChunks]
            · intro x
              rfl
          · intro x
            rfl
        · rw [if_neg hfi, if_neg hfi]
          rw [getBatch_patchBatch, getBatch_deleteConsumedChunks,
            getBatch_setHistory, hb, Option.map_some']
          · simp [hbd]
          · intro x
            rfl
    · rw [hrun, hstate, recordFlushRevertArm_state]
      by_cases hthr : thresholdHit b.config
          (sumItemCount (strandedChunks s batchDocId T)) = true
      · rw [if_pos hthr, if_pos hthr]
        rfl
      · rw [if_neg hthr, if_neg hthr]
        by_cases hfi : b.config.flushIntervalMs > 0
        · rw [if_pos hfi, if_pos hfi]
          rw [tasks_patchBatch]
          rfl
        · rw [if_neg hfi, if_neg hfi]
          rw [tasks_patchBatch]
          simp [deleteConsumedChunks]
  · intro hrem0
    obtain ⟨ic, dur2, hrun⟩ := hrun2
    have hstate := recordFlushResult_success_complete_state batchDocId ic dur2 T tRecord
      s b hb hrem0
    have hprune := pruneOldCompleted_newest
      (deleteConsumedChunks batchDocId T
        { s with flushHistory := s.flushHistory ++
          [⟨b.baseBatchId, ic, tRecord, dur2, true, none⟩] })
      batchDocId tRecord b hmemb hbd hdis hmax
    refine ⟨?_, ?_⟩
    · rw [hrun, hstate, hprune.1]
      rfl
    · rw [hrun, hstate, hprune.2, deleteConsumedChunks_batchItems_le]
      rfl

def c2cfg : BatchConfig := ⟨some 2, none, 5, "pb"⟩

def c2batch : Batch :=
  ⟨0, "e_1", "e", 1, 0, 0, BatchStatus.flushing, c2cfg, none, some 2⟩

def c2old : Batch :=
  ⟨5, "e_0", "e", 0, 0, 0, BatchStatus.completed, c2cfg, none, none⟩

def c2s : Sys :=
  ⟨[c2batch, c2old], [⟨1, 0, [10, 20], 2, 1⟩, ⟨2, 5, [30], 1, 0⟩], [], [], [], [], 7⟩

/-- Witness for C2 at a concrete flushing batch with a stamped cutoff, one
collectable chunk, and an older completed generation of the same base id. -/
theorem executeFlush_success_exact_witness :
    getBatch c2s 0 = some c2batch ∧
    c2batch.flushStartedAt = some 2 ∧
    (c2s.batches.Pairwise fun a c => a.docId ≠ c.docId) ∧
    (∀ x ∈ c2s.batches, x.docId ≠ 0 → x.baseBatchId = c2batch.baseBatchId →
      x.status = BatchStatus.completed → x.sequence < c2batch.sequence) ∧
    (executeFlushRun 0 true none 3 7 9 c2s).1 =
      ⟨if (collectBatchItems 0 7 c2s).1.isEmpty then none
        else some (collectBatchItems 0 7 c2s).1, true⟩ :=
  ⟨by decide, by decide, by decide, by decide,
    (executeFlush_success_exact 0 2 3 7 9 c2s c2batch
      (by decide) (by decide) (by decide) (by decide)).2.1⟩

end BatchProcessor
